import Mathlib

/-!
Verification of the credit-facility accounting engine.

This file gives a shallow embedding of the engine's core data model and
operations: fixed-precision money arithmetic, the payment waterfall,
overpayment handling, penalty interest, day-count conventions, LTV
classification, flash-crash protection, the liquidation engine, and the
facility operations with their event log.  Definitions are translated from
the Rust sources (`src/decimal.rs`, `src/payments/*.rs`,
`src/interest/penalty.rs`, `src/interest/accrual.rs`, `src/collateral/*.rs`,
`src/facility.rs`, `src/state.rs`, `src/events.rs`).  Theorems settle the
specification's claims against these definitions.

Modelling conventions:
* `rust_decimal::Decimal` values are modelled as exact rationals (`ℚ`);
  the engine's claims do not depend on the 96-bit mantissa limit.
* `Money` wraps a decimal and re-rounds to 8 decimal places (banker's
  rounding, the `round_dp` default) after every arithmetic operation,
  exactly as `src/decimal.rs` does; this rounding is modelled explicitly
  by `Money.round_dp8`.
* timestamps are abstract integers (seconds); `chrono` date components are
  explicit year/month/day integers.
* `u32` arithmetic that can underflow or overflow is modelled with checked
  operations returning `Option`, matching the panicking behaviour of
  debug-mode Rust.
* facility identifiers (`Uuid`) are modelled as natural numbers.
-/

/-- Banker's rounding (round half to even) of a rational to an integer,
the default strategy of `rust_decimal`'s `round_dp`. -/
def roundHalfEven (s : ℚ) : ℤ :=
  let f : ℤ := ⌊s⌋
  let r : ℚ := s - (f : ℚ)
  if r < 1/2 then f
  else if 1/2 < r then f + 1
  else if 2 ∣ f then f else f + 1

/-- Rounding to 8 decimal places, as performed by `Money` operations in
`src/decimal.rs` (`round_dp(8)`). -/
def Money.round_dp8 (q : ℚ) : ℚ :=
  ((roundHalfEven (q * 100000000) : ℚ)) / 100000000

/-- A rational is a normalized `Money` value when it is an integer number
of 10^-8 units (satoshi precision); the spec's invariant 8 states that all
`Money` values produced by the core are normalized. -/
def IsNorm (q : ℚ) : Prop := ∃ n : ℤ, q = (n : ℚ) / 100000000

theorem roundHalfEven_intCast (n : ℤ) : roundHalfEven (n : ℚ) = n := by
  unfold roundHalfEven
  simp

theorem Money.round_dp8_eq_self {q : ℚ} (h : IsNorm q) : Money.round_dp8 q = q := by
  obtain ⟨n, rfl⟩ := h
  unfold Money.round_dp8
  have h8 : ((100000000 : ℚ)) ≠ 0 := by norm_num
  have : ((n : ℚ) / 100000000) * 100000000 = (n : ℚ) := by
    field_simp
  rw [this, roundHalfEven_intCast]

theorem IsNorm.round_dp8 (q : ℚ) : IsNorm (Money.round_dp8 q) :=
  ⟨roundHalfEven (q * 100000000), rfl⟩

theorem IsNorm.zero : IsNorm 0 := ⟨0, by norm_num⟩

theorem IsNorm.intCast (n : ℤ) : IsNorm (n : ℚ) :=
  ⟨n * 100000000, by push_cast; field_simp⟩

theorem IsNorm.natCast (n : ℕ) : IsNorm (n : ℚ) := by
  simpa using IsNorm.intCast (n : ℤ)

theorem IsNorm.add {a b : ℚ} (ha : IsNorm a) (hb : IsNorm b) : IsNorm (a + b) := by
  obtain ⟨m, rfl⟩ := ha
  obtain ⟨n, rfl⟩ := hb
  exact ⟨m + n, by push_cast; ring⟩

theorem IsNorm.neg {a : ℚ} (ha : IsNorm a) : IsNorm (-a) := by
  obtain ⟨m, rfl⟩ := ha
  exact ⟨-m, by push_cast; ring⟩

theorem IsNorm.sub {a b : ℚ} (ha : IsNorm a) (hb : IsNorm b) : IsNorm (a - b) := by
  simpa [sub_eq_add_neg] using ha.add hb.neg

theorem IsNorm.min {a b : ℚ} (ha : IsNorm a) (hb : IsNorm b) : IsNorm (min a b) := by
  rcases le_total a b with h | h
  · simpa [min_eq_left h] using ha
  · simpa [min_eq_right h] using hb

theorem IsNorm.max {a b : ℚ} (ha : IsNorm a) (hb : IsNorm b) : IsNorm (max a b) := by
  rcases le_total a b with h | h
  · simpa [max_eq_right h] using hb
  · simpa [max_eq_left h] using ha

/-- Money addition (`impl Add for Money`): add then round to 8 places. -/
def Money.add (a b : ℚ) : ℚ := Money.round_dp8 (a + b)

/-- Money subtraction (`impl Sub for Money`): subtract then round; the
result may be negative (negative `Money` is a legal value). -/
def Money.sub (a b : ℚ) : ℚ := Money.round_dp8 (a - b)

/-- Money times a decimal factor (`impl Mul<Decimal> for Money`). -/
def Money.mul_dec (a k : ℚ) : ℚ := Money.round_dp8 (a * k)

/-- `Money::from_decimal`: round the decimal to 8 places. -/
def Money.from_decimal (d : ℚ) : ℚ := Money.round_dp8 d

theorem Money.add_eq {a b : ℚ} (ha : IsNorm a) (hb : IsNorm b) :
    Money.add a b = a + b :=
  Money.round_dp8_eq_self (ha.add hb)

theorem Money.sub_eq {a b : ℚ} (ha : IsNorm a) (hb : IsNorm b) :
    Money.sub a b = a - b :=
  Money.round_dp8_eq_self (ha.sub hb)

/-! ### Core enums, errors and events (`src/types.rs`, `src/errors.rs`, `src/events.rs`)

Only the error and event variants reachable from the operations embedded in
this file are included; the remaining variants of the Rust enums carry no
logic and are never produced by the embedded code paths. -/

/-- Facility status (`FacilityStatus` in `src/types.rs`). -/
inductive FacilityStatus where
  | Originated
  | Active
  | GracePeriod
  | Delinquent
  | Default
  | Liquidating
  | Liquidated
  | Settled
  | ChargedOff
  deriving DecidableEq, Repr

/-- Overpayment application method (`OverpaymentStrategy` in `src/types.rs`). -/
inductive OverpaymentStrategy where
  | ReduceEmi
  | ReduceTerm
  | ReducePrincipal
  | ReduceLimit
  deriving DecidableEq, Repr

/-- Errors produced by the embedded operations (`FacilityError` in `src/errors.rs`). -/
inductive FacilityError where
  | InsufficientFunds (available : ℚ) (requested : ℚ)
  | LtvBreach (ltv : ℚ) (threshold : ℚ)
  | InvalidPaymentAmount (amount : ℚ)
  | FacilityNotActive (status : FacilityStatus)
  | PaymentBelowMinimum (minimum : ℚ) (provided : ℚ)
  | NoCollateral
  | InvalidConfiguration (message : String)
  | InvalidState (current : String) (expected : String)
  | InvalidCollateral (message : String)
  deriving DecidableEq, Repr

/-- Domain events emitted by the embedded operations (`Event` in `src/events.rs`). -/
inductive Event where
  | FacilityActivated (facility_id : ℕ) (first_disbursement : ℚ) (timestamp : ℤ)
  | FacilitySettled (facility_id : ℕ) (settlement_amount : ℚ) (timestamp : ℤ)
  | PaymentReceived (facility_id : ℕ) (amount : ℚ) (applied_to_fees : ℚ)
      (applied_to_interest : ℚ) (applied_to_principal : ℚ) (timestamp : ℤ)
  | OverpaymentReceived (facility_id : ℕ) (amount : ℚ) (strategy : OverpaymentStrategy)
      (timestamp : ℤ)
  | FundsDrawn (facility_id : ℕ) (amount : ℚ) (new_outstanding : ℚ)
      (available_credit : ℚ) (timestamp : ℤ)
  | CollateralValueUpdated (facility_id : ℕ) (old_value : ℚ) (new_value : ℚ)
      (source : String) (timestamp : ℤ)
  | LtvCalculated (facility_id : ℕ) (ltv_value : ℚ) (collateral_value : ℚ)
      (total_debt : ℚ) (timestamp : ℤ)
  | LtvWarningBreached (facility_id : ℕ) (ltv_value : ℚ) (threshold : ℚ) (timestamp : ℤ)
  | MarginCallRequired (facility_id : ℕ) (current_ltv : ℚ) (required_ltv : ℚ)
      (deadline : ℤ) (options : List String)
  | LtvLiquidationBreached (facility_id : ℕ) (ltv_value : ℚ) (threshold : ℚ) (timestamp : ℤ)
  | LiquidationTriggered (facility_id : ℕ) (ltv_value : ℚ) (collateral_value : ℚ)
      (debt_amount : ℚ) (timestamp : ℤ)
  | LiquidationPending (facility_id : ℕ) (notice_period_ends : ℤ) (timestamp : ℤ)
  | CollateralSaleInitiated (facility_id : ℕ) (method : String)
      (expected_proceeds : ℚ) (timestamp : ℤ)
  | LiquidationCompleted (facility_id : ℕ) (proceeds : ℚ) (remaining_debt : ℚ)
      (timestamp : ℤ)
  | DeficiencyBalance (facility_id : ℕ) (amount : ℚ) (recovery_action : String)
      (timestamp : ℤ)
  | InterestAccrued (facility_id : ℕ) (amount : ℚ) (timestamp : ℤ)
  | PenaltyInterestApplied (facility_id : ℕ) (amount : ℚ) (days_overdue : ℕ)
      (timestamp : ℤ)
  | GracePeriodStarted (facility_id : ℕ) (payment_due_date : ℤ)
      (grace_ends_at : ℤ) (timestamp : ℤ)
  | GracePeriodExpired (facility_id : ℕ) (days_overdue : ℕ) (timestamp : ℤ)
  | LateFeeApplied (facility_id : ℕ) (fee_amount : ℚ) (days_overdue : ℕ)
      (timestamp : ℤ)
  | StatusChanged (facility_id : ℕ) (old_status : FacilityStatus)
      (new_status : FacilityStatus) (reason : String) (timestamp : ℤ)
  deriving DecidableEq, Repr

/-! ### Payment context and validation (`src/payments/mod.rs`) -/

/-- Payment request (`PaymentRequest` in `src/payments/mod.rs`). -/
structure PaymentRequest where
  facility_id : ℕ
  amount : ℚ
  payment_date : ℤ
  reference : String
  is_principal_only : Bool
  deriving DecidableEq, Repr

/-- Payment context with current balances (`PaymentContext` in
`src/payments/mod.rs`). -/
structure PaymentContext where
  facility_id : ℕ
  accrued_fees : ℚ
  accrued_penalties : ℚ
  accrued_interest : ℚ
  outstanding_principal : ℚ
  minimum_payment : Option ℚ
  payment_due_date : Option ℤ
  days_overdue : ℕ
  deriving DecidableEq, Repr

/-- Total outstanding balance of a payment context: fees + penalties +
interest + principal, folded left with rounding `Money` addition as in the
source. -/
def PaymentContext.total_outstanding (ctx : PaymentContext) : ℚ :=
  Money.add (Money.add (Money.add ctx.accrued_fees ctx.accrued_penalties)
    ctx.accrued_interest) ctx.outstanding_principal

/-- Payment validation (`PaymentContext::validate_payment`): reject zero or
negative amounts, then reject amounts below the configured minimum unless
they cover the whole outstanding balance. -/
def PaymentContext.validate_payment (ctx : PaymentContext) (amount : ℚ) :
    Except FacilityError Unit :=
  if amount = 0 ∨ amount < 0 then
    .error (.InvalidPaymentAmount amount)
  else
    match ctx.minimum_payment with
    | some minimum =>
        if amount < minimum ∧ amount < ctx.total_outstanding then
          .error (.PaymentBelowMinimum minimum amount)
        else
          .ok ()
    | none => .ok ()

/-! ### Payment waterfall (`src/payments/waterfall.rs`) -/

/-- Waterfall priority levels (`WaterfallPriority`), represented by their
discriminant values 1..6. -/
def WaterfallPriority := ℕ

/-- Payment waterfall configuration (`PaymentWaterfall`). -/
structure PaymentWaterfall where
  fees_priority : ℕ
  penalties_priority : ℕ
  interest_priority : ℕ
  principal_priority : ℕ
  allow_overpayment : Bool
  deriving DecidableEq, Repr

/-- Standard waterfall: fees -> penalties -> interest -> principal. -/
def PaymentWaterfall.standard : PaymentWaterfall :=
  { fees_priority := 1
    penalties_priority := 2
    interest_priority := 3
    principal_priority := 4
    allow_overpayment := true }

/-- Interest-first waterfall for certain products. -/
def PaymentWaterfall.interest_first : PaymentWaterfall :=
  { fees_priority := 2
    penalties_priority := 3
    interest_priority := 1
    principal_priority := 4
    allow_overpayment := true }

/-- Debt components addressed by the waterfall (`PaymentComponent`). -/
inductive PaymentComponent where
  | Fees
  | Penalties
  | Interest
  | Principal
  deriving DecidableEq, Repr

/-- Per-bucket application tally (`PaymentApplication` in `src/types.rs`). -/
structure PaymentApplication where
  to_fees : ℚ
  to_penalties : ℚ
  to_interest : ℚ
  to_principal : ℚ
  excess : ℚ
  deriving DecidableEq, Repr

/-- Sum of the four bucket applications (`PaymentApplication::total_applied`,
folded left with rounding `Money` addition as in the source). -/
def PaymentApplication.total_applied (app : PaymentApplication) : ℚ :=
  Money.add (Money.add (Money.add app.to_fees app.to_penalties) app.to_interest)
    app.to_principal

/-- Balance of a component in the context (the `balance` borrow in
`PaymentProcessor::apply_to_component`). -/
def ctxGet (c : PaymentComponent) (ctx : PaymentContext) : ℚ :=
  match c with
  | .Fees => ctx.accrued_fees
  | .Penalties => ctx.accrued_penalties
  | .Interest => ctx.accrued_interest
  | .Principal => ctx.outstanding_principal

/-- Write a component's balance back into the context. -/
def ctxSet (c : PaymentComponent) (v : ℚ) (ctx : PaymentContext) : PaymentContext :=
  match c with
  | .Fees => { ctx with accrued_fees := v }
  | .Penalties => { ctx with accrued_penalties := v }
  | .Interest => { ctx with accrued_interest := v }
  | .Principal => { ctx with outstanding_principal := v }

/-- Applied amount of a component in the tally (the `applied_field` borrow). -/
def appGet (c : PaymentComponent) (app : PaymentApplication) : ℚ :=
  match c with
  | .Fees => app.to_fees
  | .Penalties => app.to_penalties
  | .Interest => app.to_interest
  | .Principal => app.to_principal

/-- Write a component's applied amount into the tally. -/
def appSet (c : PaymentComponent) (v : ℚ) (app : PaymentApplication) : PaymentApplication :=
  match c with
  | .Fees => { app with to_fees := v }
  | .Penalties => { app with to_penalties := v }
  | .Interest => { app with to_interest := v }
  | .Principal => { app with to_principal := v }

/-- One waterfall step (`PaymentProcessor::apply_to_component`): pay
`min(available, balance)` into the component, decrement the balance, record
the payment, and return the remaining amount. -/
def apply_to_component (c : PaymentComponent) (available : ℚ)
    (ctx : PaymentContext) (app : PaymentApplication) :
    ℚ × PaymentContext × PaymentApplication :=
  let payment := min available (ctxGet c ctx)
  (Money.sub available payment,
   ctxSet c (Money.sub (ctxGet c ctx) payment) ctx,
   appSet c payment app)

/-- Stable insertion of a priority/component pair, modelling one step of
`Vec::sort_by_key` (a stable sort). -/
def insertByPriority (p : ℕ × PaymentComponent) :
    List (ℕ × PaymentComponent) → List (ℕ × PaymentComponent)
  | [] => [p]
  | q :: qs => if p.1 ≤ q.1 then p :: q :: qs else q :: insertByPriority p qs

/-- Stable sort by priority key (`priorities.sort_by_key`). -/
def sortPairs (l : List (ℕ × PaymentComponent)) : List (ℕ × PaymentComponent) :=
  l.foldr insertByPriority []

/-- The component visit order of a waterfall: the four priority/component
pairs of `PaymentProcessor::process`, stably sorted by priority. -/
def sortedComponents (w : PaymentWaterfall) : List PaymentComponent :=
  (sortPairs
    [(w.fees_priority, .Fees), (w.penalties_priority, .Penalties),
     (w.interest_priority, .Interest), (w.principal_priority, .Principal)]).map
    Prod.snd

/-- The main loop of `PaymentProcessor::process`: fold the payment through the
sorted components, stopping early when nothing remains. -/
def processLoop : List PaymentComponent → ℚ → PaymentContext → PaymentApplication →
    ℚ × PaymentContext × PaymentApplication
  | [], remaining, ctx, app => (remaining, ctx, app)
  | c :: cs, remaining, ctx, app =>
      let s := apply_to_component c remaining ctx app
      if s.1 = 0 then s else processLoop cs s.1 s.2.1 s.2.2

/-- Payment result (`PaymentResult` in `src/payments/waterfall.rs`). -/
structure PaymentResult where
  payment_id : ℕ
  amount_applied : ℚ
  application : PaymentApplication
  remaining_balance : ℚ
  payment_date : ℤ
  deriving DecidableEq, Repr

/-- Payment processing through the waterfall (`PaymentProcessor::process`).
The mutable context and event store are threaded explicitly; on a validation
error both are returned unchanged.  Note that the source assigns the leftover
to `excess` in both arms of the `allow_overpayment` branch. -/
def PaymentProcessor.process (w : PaymentWaterfall) (payment : PaymentRequest)
    (ctx : PaymentContext) (now : ℤ) (events : List Event) :
    Except FacilityError PaymentResult × PaymentContext × List Event :=
  match ctx.validate_payment payment.amount with
  | .error e => (.error e, ctx, events)
  | .ok _ =>
      let s := processLoop (sortedComponents w) payment.amount ctx
        { to_fees := 0, to_penalties := 0, to_interest := 0, to_principal := 0, excess := 0 }
      let app := if 0 < s.1 then { s.2.2 with excess := s.1 } else s.2.2
      let events' := events ++
        [Event.PaymentReceived payment.facility_id payment.amount app.to_fees
          app.to_interest app.to_principal now]
      (.ok { payment_id := payment.facility_id
             amount_applied := app.total_applied
             application := app
             remaining_balance := s.2.1.total_outstanding
             payment_date := payment.payment_date },
       s.2.1, events')

/-! ### Waterfall correctness infrastructure -/

theorem insertByPriority_perm (p : ℕ × PaymentComponent)
    (l : List (ℕ × PaymentComponent)) : (insertByPriority p l).Perm (p :: l) := by
  induction l with
  | nil => simp [insertByPriority]
  | cons q qs ih =>
      simp only [insertByPriority]
      split
      · exact List.Perm.refl _
      · exact (ih.cons q).trans (List.Perm.swap p q qs)

theorem sortPairs_perm (l : List (ℕ × PaymentComponent)) : (sortPairs l).Perm l := by
  induction l with
  | nil => simp [sortPairs]
  | cons p ps ih =>
      have : sortPairs (p :: ps) = insertByPriority p (sortPairs ps) := rfl
      rw [this]
      exact (insertByPriority_perm p (sortPairs ps)).trans (ih.cons p)

theorem sortedComponents_perm (w : PaymentWaterfall) :
    (sortedComponents w).Perm
      [.Fees, .Penalties, .Interest, .Principal] := by
  have h := (sortPairs_perm
    [(w.fees_priority, .Fees), (w.penalties_priority, .Penalties),
     (w.interest_priority, .Interest), (w.principal_priority, .Principal)]).map Prod.snd
  simpa [sortedComponents] using h

theorem sortedComponents_nodup (w : PaymentWaterfall) : (sortedComponents w).Nodup :=
  ((sortedComponents_perm w).nodup_iff).2 (by decide)

/-- Exact rational sum of the four bucket applications (used to state the
conservation law; it agrees with `total_applied` on normalized values). -/
def appSum (app : PaymentApplication) : ℚ :=
  app.to_fees + app.to_penalties + app.to_interest + app.to_principal

theorem ctxGet_ctxSet_same (c : PaymentComponent) (v : ℚ) (ctx : PaymentContext) :
    ctxGet c (ctxSet c v ctx) = v := by
  cases c <;> rfl

theorem ctxGet_ctxSet_ne {c c' : PaymentComponent} (h : c' ≠ c) (v : ℚ)
    (ctx : PaymentContext) : ctxGet c' (ctxSet c v ctx) = ctxGet c' ctx := by
  cases c <;> cases c' <;> first | rfl | exact absurd rfl h

theorem appGet_appSet_same (c : PaymentComponent) (v : ℚ) (app : PaymentApplication) :
    appGet c (appSet c v app) = v := by
  cases c <;> rfl

theorem appGet_appSet_ne {c c' : PaymentComponent} (h : c' ≠ c) (v : ℚ)
    (app : PaymentApplication) : appGet c' (appSet c v app) = appGet c' app := by
  cases c <;> cases c' <;> first | rfl | exact absurd rfl h

theorem appSet_excess (c : PaymentComponent) (v : ℚ) (app : PaymentApplication) :
    (appSet c v app).excess = app.excess := by
  cases c <;> rfl

theorem appSum_appSet {c : PaymentComponent} {app : PaymentApplication}
    (h : appGet c app = 0) (v : ℚ) : appSum (appSet c v app) = appSum app + v := by
  cases c <;> simp [appSum, appSet] <;> simp [appGet] at h <;> linarith

/-- Invariant of the waterfall loop: balances stay normalized and
nonnegative, untouched components keep their balance and tally, each visited
component's new balance is its old balance minus the amount applied to it,
the applied amounts are nonnegative, the remaining amount plus the tally sum
is conserved, and the `excess` field is untouched. -/
theorem processLoop_spec {L : List PaymentComponent} {r : ℚ} {ctx : PaymentContext}
    {app : PaymentApplication} {r' : ℚ} {ctx' : PaymentContext} {app' : PaymentApplication}
    (hres : processLoop L r ctx app = (r', ctx', app'))
    (hnd : L.Nodup) (hrn : IsNorm r) (hr0 : 0 ≤ r)
    (hcn : ∀ c, IsNorm (ctxGet c ctx)) (hc0 : ∀ c, 0 ≤ ctxGet c ctx)
    (ha : ∀ c ∈ L, appGet c app = 0) :
    IsNorm r' ∧ 0 ≤ r' ∧
    (∀ c, IsNorm (ctxGet c ctx')) ∧ (∀ c, 0 ≤ ctxGet c ctx') ∧
    (∀ c, c ∉ L → ctxGet c ctx' = ctxGet c ctx ∧ appGet c app' = appGet c app) ∧
    (∀ c ∈ L, ctxGet c ctx' = ctxGet c ctx - appGet c app' ∧
      0 ≤ appGet c app' ∧ IsNorm (appGet c app')) ∧
    r' + appSum app' = r + appSum app ∧
    app'.excess = app.excess := by
  induction L generalizing r ctx app r' ctx' app' with
  | nil =>
      simp only [processLoop, Prod.mk.injEq] at hres
      obtain ⟨rfl, rfl, rfl⟩ := hres
      refine ⟨hrn, hr0, hcn, hc0, ?_, ?_, by ring, rfl⟩
      · intro c _; exact ⟨rfl, rfl⟩
      · intro c hc; cases hc
  | cons c cs ih =>
      have hcnotmem : c ∉ cs := (List.nodup_cons.1 hnd).1
      have hndcs : cs.Nodup := (List.nodup_cons.1 hnd).2
      -- the step applied to the head component
      have hpn : IsNorm (min r (ctxGet c ctx)) := hrn.min (hcn c)
      have hp0 : 0 ≤ min r (ctxGet c ctx) := le_min hr0 (hc0 c)
      have hple : min r (ctxGet c ctx) ≤ r := min_le_left _ _
      have hpleb : min r (ctxGet c ctx) ≤ ctxGet c ctx := min_le_right _ _
      have hsubr : Money.sub r (min r (ctxGet c ctx)) = r - min r (ctxGet c ctx) :=
        Money.sub_eq hrn hpn
      have hsubb : Money.sub (ctxGet c ctx) (min r (ctxGet c ctx)) =
          ctxGet c ctx - min r (ctxGet c ctx) := Money.sub_eq (hcn c) hpn
      set payment := min r (ctxGet c ctx) with hpay
      -- invariants after the step
      have hcn1 : ∀ c', IsNorm (ctxGet c' (ctxSet c (Money.sub (ctxGet c ctx) payment) ctx)) := by
        intro c'
        by_cases h : c' = c
        · subst h; rw [ctxGet_ctxSet_same, hsubb]; exact (hcn c').sub hpn
        · rw [ctxGet_ctxSet_ne h]; exact hcn c'
      have hc01 : ∀ c', 0 ≤ ctxGet c' (ctxSet c (Money.sub (ctxGet c ctx) payment) ctx) := by
        intro c'
        by_cases h : c' = c
        · subst h; rw [ctxGet_ctxSet_same, hsubb]; linarith
        · rw [ctxGet_ctxSet_ne h]; exact hc0 c'
      simp only [processLoop, apply_to_component, ← hpay] at hres
      by_cases h0 : Money.sub r payment = 0
      · -- early break: nothing remains after this component
        rw [if_pos h0] at hres
        simp only [Prod.mk.injEq] at hres
        obtain ⟨rfl, rfl, rfl⟩ := hres
        have hrp : r - payment = 0 := by rw [← hsubr, h0]
        refine ⟨by rw [h0]; exact IsNorm.zero, by rw [h0], hcn1, hc01, ?_, ?_, ?_,
          appSet_excess c payment app⟩
        · intro c' hc'
          have hne : c' ≠ c := fun h => hc' (h ▸ List.mem_cons_self c cs)
          exact ⟨ctxGet_ctxSet_ne hne _ _, appGet_appSet_ne hne _ _⟩
        · intro c' hc'
          rcases List.mem_cons.1 hc' with h | h
          · subst h
            rw [ctxGet_ctxSet_same, appGet_appSet_same, hsubb]
            exact ⟨rfl, hp0, hpn⟩
          · have hne : c' ≠ c := fun he => hcnotmem (he ▸ h)
            rw [ctxGet_ctxSet_ne hne, appGet_appSet_ne hne, ha c' (List.mem_cons_of_mem c h)]
            refine ⟨by ring, le_refl 0, IsNorm.zero⟩
        · rw [appSum_appSet (ha c (List.mem_cons_self c cs)) payment, h0]
          linarith
      · -- continue with the remaining components
        rw [if_neg h0] at hres
        have ha1 : ∀ c' ∈ cs, appGet c' (appSet c payment app) = 0 := by
          intro c' hc'
          have hne : c' ≠ c := fun he => hcnotmem (he ▸ hc')
          rw [appGet_appSet_ne hne]; exact ha c' (List.mem_cons_of_mem c hc')
        have hrn1 : IsNorm (Money.sub r payment) := by rw [hsubr]; exact hrn.sub hpn
        have hr01 : 0 ≤ Money.sub r payment := by rw [hsubr]; linarith
        obtain ⟨h1, h2, h3, h4, h5, h6, h7, h8⟩ :=
          ih hres hndcs hrn1 hr01 hcn1 hc01 ha1
        refine ⟨h1, h2, h3, h4, ?_, ?_, ?_, by rw [h8, appSet_excess]⟩
        · intro c' hc'
          have hne : c' ≠ c := fun he => hc' (he ▸ List.mem_cons_self c cs)
          have hncs : c' ∉ cs := fun he => hc' (List.mem_cons_of_mem c he)
          obtain ⟨hx, hy⟩ := h5 c' hncs
          rw [hx, hy, ctxGet_ctxSet_ne hne, appGet_appSet_ne hne]
          exact ⟨rfl, rfl⟩
        · intro c' hc'
          rcases List.mem_cons.1 hc' with h | h
          · subst h
            obtain ⟨hx, hy⟩ := h5 c' hcnotmem
            rw [hx, hy, ctxGet_ctxSet_same, appGet_appSet_same, hsubb]
            exact ⟨rfl, hp0, hpn⟩
          · obtain ⟨hx, hy, hz⟩ := h6 c' h
            have hne : c' ≠ c := fun he => hcnotmem (he ▸ h)
            rw [hx, ctxGet_ctxSet_ne hne]
            exact ⟨rfl, hy, hz⟩
        · rw [h7, hsubr, appSum_appSet (ha c (List.mem_cons_self c cs)) payment]
          ring

theorem appGet_excess_update (c : PaymentComponent) (app : PaymentApplication) (v : ℚ) :
    appGet c { app with excess := v } = appGet c app := by
  cases c <;> rfl

/-- Order-sensitive characterization of the waterfall loop: the amount
applied to a component equals `min(remaining, balance)` where `remaining` is
the payment minus everything applied to the components visited earlier. -/
theorem processLoop_chain {L : List PaymentComponent} {r : ℚ} {ctx : PaymentContext}
    {app : PaymentApplication} {r' : ℚ} {ctx' : PaymentContext} {app' : PaymentApplication}
    (hres : processLoop L r ctx app = (r', ctx', app'))
    (hnd : L.Nodup) (hrn : IsNorm r) (hr0 : 0 ≤ r)
    (hcn : ∀ c, IsNorm (ctxGet c ctx)) (hc0 : ∀ c, 0 ≤ ctxGet c ctx)
    (ha : ∀ c ∈ L, appGet c app = 0) :
    ∀ L1 c L2, L = L1 ++ c :: L2 →
      appGet c app' =
        min (r - (L1.map (fun x => appGet x app')).sum) (ctxGet c ctx) := by
  induction L generalizing r ctx app r' ctx' app' with
  | nil =>
      intro L1 c L2 hdec
      exact absurd hdec (by cases L1 <;> simp)
  | cons c0 cs ih =>
      intro L1 c L2 hdec
      have hcnotmem : c0 ∉ cs := (List.nodup_cons.1 hnd).1
      have hndcs : cs.Nodup := (List.nodup_cons.1 hnd).2
      have hpn : IsNorm (min r (ctxGet c0 ctx)) := hrn.min (hcn c0)
      have hp0 : 0 ≤ min r (ctxGet c0 ctx) := le_min hr0 (hc0 c0)
      have hple : min r (ctxGet c0 ctx) ≤ r := min_le_left _ _
      have hpleb : min r (ctxGet c0 ctx) ≤ ctxGet c0 ctx := min_le_right _ _
      have hsubr : Money.sub r (min r (ctxGet c0 ctx)) = r - min r (ctxGet c0 ctx) :=
        Money.sub_eq hrn hpn
      have hsubb : Money.sub (ctxGet c0 ctx) (min r (ctxGet c0 ctx)) =
          ctxGet c0 ctx - min r (ctxGet c0 ctx) := Money.sub_eq (hcn c0) hpn
      set payment := min r (ctxGet c0 ctx) with hpay
      have hcn1 : ∀ c', IsNorm (ctxGet c' (ctxSet c0 (Money.sub (ctxGet c0 ctx) payment) ctx)) := by
        intro c'
        by_cases h : c' = c0
        · subst h; rw [ctxGet_ctxSet_same, hsubb]; exact (hcn c').sub hpn
        · rw [ctxGet_ctxSet_ne h]; exact hcn c'
      have hc01 : ∀ c', 0 ≤ ctxGet c' (ctxSet c0 (Money.sub (ctxGet c0 ctx) payment) ctx) := by
        intro c'
        by_cases h : c' = c0
        · subst h; rw [ctxGet_ctxSet_same, hsubb]; linarith
        · rw [ctxGet_ctxSet_ne h]; exact hc0 c'
      have ha1 : ∀ c' ∈ cs, appGet c' (appSet c0 payment app) = 0 := by
        intro c' hc'
        have hne : c' ≠ c0 := fun he => hcnotmem (he ▸ hc')
        rw [appGet_appSet_ne hne]; exact ha c' (List.mem_cons_of_mem c0 hc')
      simp only [processLoop, apply_to_component, ← hpay] at hres
      by_cases h0 : Money.sub r payment = 0
      · -- early break after the head component
        rw [if_pos h0] at hres
        simp only [Prod.mk.injEq] at hres
        obtain ⟨rfl, rfl, rfl⟩ := hres
        have hrp : r - payment = 0 := by rw [← hsubr, h0]
        cases L1 with
        | nil =>
            simp only [List.nil_append, List.cons.injEq] at hdec
            obtain ⟨rfl, rfl⟩ := hdec
            simp only [List.map_nil, List.sum_nil, sub_zero]
            rw [appGet_appSet_same]
        | cons d L1t =>
            simp only [List.cons_append, List.cons.injEq] at hdec
            obtain ⟨rfl, hcs⟩ := hdec
            have hcmem : c ∈ cs := by rw [hcs]; exact List.mem_append_right _ (List.mem_cons_self c L2)
            have hcne : c ≠ c0 := fun he => hcnotmem (he ▸ hcmem)
            rw [appGet_appSet_ne hcne, ha c (List.mem_cons_of_mem c0 hcmem)]
            have hsum : ((c0 :: L1t).map (fun x => appGet x (appSet c0 payment app))).sum = payment := by
              simp only [List.map_cons, List.sum_cons, appGet_appSet_same]
              have hz : ∀ x ∈ L1t, appGet x (appSet c0 payment app) = 0 := by
                intro x hx
                have hxcs : x ∈ cs := by
                  rw [hcs]; exact List.mem_append_left _ hx
                exact ha1 x hxcs
              rw [List.sum_eq_zero (by simpa using hz)]
              ring
            rw [hsum, hrp]
            exact (min_eq_left (hc0 c)).symm
      · -- no break: recurse on the tail
        rw [if_neg h0] at hres
        have hrn1 : IsNorm (Money.sub r payment) := by rw [hsubr]; exact hrn.sub hpn
        have hr01 : 0 ≤ Money.sub r payment := by rw [hsubr]; linarith
        obtain ⟨_, _, _, _, h5, _, _, _⟩ :=
          processLoop_spec hres hndcs hrn1 hr01 hcn1 hc01 ha1
        cases L1 with
        | nil =>
            simp only [List.nil_append, List.cons.injEq] at hdec
            obtain ⟨rfl, rfl⟩ := hdec
            obtain ⟨_, happ⟩ := h5 c0 hcnotmem
            simp only [List.map_nil, List.sum_nil, sub_zero]
            rw [happ, appGet_appSet_same]
        | cons d L1t =>
            simp only [List.cons_append, List.cons.injEq] at hdec
            obtain ⟨rfl, hcs⟩ := hdec
            have hcmem : c ∈ cs := by rw [hcs]; exact List.mem_append_right _ (List.mem_cons_self c L2)
            have hcne : c ≠ c0 := fun he => hcnotmem (he ▸ hcmem)
            have hmain := ih hres hndcs hrn1 hr01 hcn1 hc01 ha1 L1t c L2 hcs
            rw [ctxGet_ctxSet_ne hcne] at hmain
            obtain ⟨_, happd⟩ := h5 c0 hcnotmem
            have hd : appGet c0 app' = payment := by rw [happd, appGet_appSet_same]
            rw [hmain, hsubr]
            simp only [List.map_cons, List.sum_cons, hd]
            rw [sub_sub]

theorem process_ok_unfold {w : PaymentWaterfall} {req : PaymentRequest}
    {ctx : PaymentContext} {now : ℤ} {events : List Event} {r' : ℚ}
    {ctx2 : PaymentContext} {app' : PaymentApplication}
    (hv : ctx.validate_payment req.amount = .ok ())
    (hEq : processLoop (sortedComponents w) req.amount ctx
      (⟨0, 0, 0, 0, 0⟩ : PaymentApplication) = (r', ctx2, app')) :
    PaymentProcessor.process w req ctx now events =
      (.ok { payment_id := req.facility_id
             amount_applied := (if 0 < r' then { app' with excess := r' } else app').total_applied
             application := if 0 < r' then { app' with excess := r' } else app'
             remaining_balance := ctx2.total_outstanding
             payment_date := req.payment_date }, ctx2,
       events ++ [Event.PaymentReceived req.facility_id req.amount
         (if 0 < r' then { app' with excess := r' } else app').to_fees
         (if 0 < r' then { app' with excess := r' } else app').to_interest
         (if 0 < r' then { app' with excess := r' } else app').to_principal now]) := by
  simp only [PaymentProcessor.process, hv, hEq]

/-- C2: for every payment context with all four buckets nonnegative (and
normalized) and every amount that passes validation,
`PaymentProcessor::process` succeeds and walks the buckets in the waterfall's
priority order, applying to each bucket `min(remaining, balance)` where
`remaining` is the amount minus everything applied to earlier buckets;
afterwards the four applications plus the excess sum to the payment amount,
each bucket's new balance is its old balance minus the amount applied to it
and is nonnegative, and the leftover is recorded in the `excess` field. -/
theorem claim_C2_waterfall_process (w : PaymentWaterfall) (req : PaymentRequest)
    (ctx : PaymentContext) (now : ℤ) (events : List Event)
    (hf0 : 0 ≤ ctx.accrued_fees) (hp0 : 0 ≤ ctx.accrued_penalties)
    (hi0 : 0 ≤ ctx.accrued_interest) (hpr0 : 0 ≤ ctx.outstanding_principal)
    (hfn : IsNorm ctx.accrued_fees) (hpen : IsNorm ctx.accrued_penalties)
    (hintn : IsNorm ctx.accrued_interest) (hprn : IsNorm ctx.outstanding_principal)
    (han : IsNorm req.amount)
    (hv : ctx.validate_payment req.amount = .ok ()) :
    ∃ res ctx2,
      PaymentProcessor.process w req ctx now events =
        (.ok res, ctx2, events ++ [Event.PaymentReceived req.facility_id req.amount
          res.application.to_fees res.application.to_interest
          res.application.to_principal now]) ∧
      (∀ L1 c L2, sortedComponents w = L1 ++ c :: L2 →
        appGet c res.application =
          min (req.amount - (L1.map (fun x => appGet x res.application)).sum)
            (ctxGet c ctx)) ∧
      res.application.to_fees + res.application.to_penalties +
        res.application.to_interest + res.application.to_principal +
        res.application.excess = req.amount ∧
      ctx2.accrued_fees = ctx.accrued_fees - res.application.to_fees ∧
      ctx2.accrued_penalties = ctx.accrued_penalties - res.application.to_penalties ∧
      ctx2.accrued_interest = ctx.accrued_interest - res.application.to_interest ∧
      ctx2.outstanding_principal =
        ctx.outstanding_principal - res.application.to_principal ∧
      0 ≤ ctx2.accrued_fees ∧ 0 ≤ ctx2.accrued_penalties ∧
      0 ≤ ctx2.accrued_interest ∧ 0 ≤ ctx2.outstanding_principal ∧
      0 ≤ res.application.to_fees ∧ 0 ≤ res.application.to_penalties ∧
      0 ≤ res.application.to_interest ∧ 0 ≤ res.application.to_principal ∧
      0 ≤ res.application.excess := by
  have hcn : ∀ c, IsNorm (ctxGet c ctx) := by
    intro c; cases c <;> assumption
  have hc0 : ∀ c, 0 ≤ ctxGet c ctx := by
    intro c; cases c <;> assumption
  have hr0 : 0 ≤ req.amount := by
    by_cases hneg : req.amount = 0 ∨ req.amount < 0
    · exfalso
      unfold PaymentContext.validate_payment at hv
      rw [if_pos hneg] at hv
      exact Except.noConfusion hv
    · push_neg at hneg
      linarith [hneg.2]
  have ha0 : ∀ c ∈ sortedComponents w,
      appGet c (⟨0, 0, 0, 0, 0⟩ : PaymentApplication) = 0 := by
    intro c _; cases c <;> rfl
  rcases hEq : processLoop (sortedComponents w) req.amount ctx
      (⟨0, 0, 0, 0, 0⟩ : PaymentApplication) with ⟨r', ctx2, app'⟩
  obtain ⟨_, h2, _, h4, _, h6, h7, h8⟩ :=
    processLoop_spec hEq (sortedComponents_nodup w) han hr0 hcn hc0 ha0
  have hchain := processLoop_chain hEq (sortedComponents_nodup w) han hr0 hcn hc0 ha0
  have hmemF : PaymentComponent.Fees ∈ sortedComponents w :=
    ((sortedComponents_perm w).mem_iff).2 (by decide)
  have hmemP : PaymentComponent.Penalties ∈ sortedComponents w :=
    ((sortedComponents_perm w).mem_iff).2 (by decide)
  have hmemI : PaymentComponent.Interest ∈ sortedComponents w :=
    ((sortedComponents_perm w).mem_iff).2 (by decide)
  have hmemPr : PaymentComponent.Principal ∈ sortedComponents w :=
    ((sortedComponents_perm w).mem_iff).2 (by decide)
  obtain ⟨hbF, hgF, _⟩ := h6 _ hmemF
  obtain ⟨hbP, hgP, _⟩ := h6 _ hmemP
  obtain ⟨hbI, hgI, _⟩ := h6 _ hmemI
  obtain ⟨hbPr, hgPr, _⟩ := h6 _ hmemPr
  have hex0 : app'.excess = 0 := by
    rw [h8]
  have happx : ∀ c, appGet c (if 0 < r' then { app' with excess := r' } else app') =
      appGet c app' := by
    intro c
    by_cases hpos : 0 < r'
    · rw [if_pos hpos, appGet_excess_update]
    · rw [if_neg hpos]
  refine ⟨{ payment_id := req.facility_id
            amount_applied := (if 0 < r' then { app' with excess := r' } else app').total_applied
            application := if 0 < r' then { app' with excess := r' } else app'
            remaining_balance := ctx2.total_outstanding
            payment_date := req.payment_date }, ctx2,
    process_ok_unfold hv hEq, ?_, ?_, ?_, ?_, ?_, ?_, ?_, ?_, ?_, ?_, ?_, ?_, ?_, ?_, ?_⟩
  · intro L1 c L2 hdec
    simp only [happx]
    exact hchain L1 c L2 hdec
  · have hsum0 : appSum (⟨0, 0, 0, 0, 0⟩ : PaymentApplication) = 0 := by
      simp [appSum]
    rw [hsum0] at h7
    by_cases hpos : 0 < r'
    · rw [if_pos hpos]
      show app'.to_fees + app'.to_penalties + app'.to_interest + app'.to_principal + r' =
        req.amount
      simp only [appSum] at h7
      linarith
    · rw [if_neg hpos]
      have hz : r' = 0 := le_antisymm (not_lt.1 hpos) h2
      simp only [appSum] at h7
      rw [hex0]
      linarith
  · show ctxGet PaymentComponent.Fees ctx2 = ctxGet PaymentComponent.Fees ctx -
      appGet PaymentComponent.Fees (if 0 < r' then { app' with excess := r' } else app')
    rw [happx]; exact hbF
  · show ctxGet PaymentComponent.Penalties ctx2 = ctxGet PaymentComponent.Penalties ctx -
      appGet PaymentComponent.Penalties (if 0 < r' then { app' with excess := r' } else app')
    rw [happx]; exact hbP
  · show ctxGet PaymentComponent.Interest ctx2 = ctxGet PaymentComponent.Interest ctx -
      appGet PaymentComponent.Interest (if 0 < r' then { app' with excess := r' } else app')
    rw [happx]; exact hbI
  · show ctxGet PaymentComponent.Principal ctx2 = ctxGet PaymentComponent.Principal ctx -
      appGet PaymentComponent.Principal (if 0 < r' then { app' with excess := r' } else app')
    rw [happx]; exact hbPr
  · exact h4 .Fees
  · exact h4 .Penalties
  · exact h4 .Interest
  · exact h4 .Principal
  · show 0 ≤ appGet PaymentComponent.Fees
      (if 0 < r' then { app' with excess := r' } else app')
    rw [happx]; exact hgF
  · show 0 ≤ appGet PaymentComponent.Penalties
      (if 0 < r' then { app' with excess := r' } else app')
    rw [happx]; exact hgP
  · show 0 ≤ appGet PaymentComponent.Interest
      (if 0 < r' then { app' with excess := r' } else app')
    rw [happx]; exact hgI
  · show 0 ≤ appGet PaymentComponent.Principal
      (if 0 < r' then { app' with excess := r' } else app')
    rw [happx]; exact hgPr
  · by_cases hpos : 0 < r'
    · rw [if_pos hpos]
      show 0 ≤ r'
      exact le_of_lt hpos
    · rw [if_neg hpos]
      show 0 ≤ app'.excess
      rw [hex0]

theorem claim_C2_waterfall_process_witness :
    ∃ res ctx2,
      PaymentProcessor.process PaymentWaterfall.standard
        ⟨7, 125, 0, "ref", false⟩ ⟨7, 50, 25, 100, 1000, none, none, 0⟩ 0 [] =
        (.ok res, ctx2, [] ++ [Event.PaymentReceived 7 125 res.application.to_fees
          res.application.to_interest res.application.to_principal 0]) ∧
      res.application.to_fees + res.application.to_penalties +
        res.application.to_interest + res.application.to_principal +
        res.application.excess = 125 ∧
      0 ≤ res.application.excess := by
  obtain ⟨res, ctx2, h1, _, h3, _, _, _, _, _, _, _, _, _, _, _, _, hx⟩ :=
    claim_C2_waterfall_process PaymentWaterfall.standard
      ⟨7, 125, 0, "ref", false⟩ ⟨7, 50, 25, 100, 1000, none, none, 0⟩ 0 []
      (by norm_num) (by norm_num) (by norm_num) (by norm_num)
      ⟨5000000000, by norm_num⟩ ⟨2500000000, by norm_num⟩
      ⟨10000000000, by norm_num⟩ ⟨100000000000, by norm_num⟩
      ⟨12500000000, by norm_num⟩
      (by unfold PaymentContext.validate_payment
          rw [if_neg (by norm_num : ¬ ((125:ℚ) = 0 ∨ (125:ℚ) < 0))])
  exact ⟨res, ctx2, h1, h3, hx⟩

/-- Total outstanding of a context with normalized balances is the exact
rational sum of its four buckets. -/
theorem total_outstanding_eq {ctx : PaymentContext}
    (h1 : IsNorm ctx.accrued_fees) (h2 : IsNorm ctx.accrued_penalties)
    (h3 : IsNorm ctx.accrued_interest) (h4 : IsNorm ctx.outstanding_principal) :
    ctx.total_outstanding = ctx.accrued_fees + ctx.accrued_penalties +
      ctx.accrued_interest + ctx.outstanding_principal := by
  unfold PaymentContext.total_outstanding
  rw [Money.add_eq h1 h2, Money.add_eq (h1.add h2) h3,
    Money.add_eq ((h1.add h2).add h3) h4]

/-! ### C9: payment validation -/

/-- Validation as worded by the claim (amended with the invalid-amount check
taking priority): reject nonpositive amounts as invalid, then reject amounts
below the configured minimum that do not cover the whole outstanding
balance. -/
def spec_validate_payment (ctx : PaymentContext) (amount : ℚ) :
    Except FacilityError Unit :=
  if amount ≤ 0 then .error (.InvalidPaymentAmount amount)
  else
    match ctx.minimum_payment with
    | some minimum =>
        if amount < minimum ∧ amount < ctx.total_outstanding then
          .error (.PaymentBelowMinimum minimum amount)
        else .ok ()
    | none => .ok ()

/-- C9 counterexample: for the amount 0 with a minimum payment set, the
claim's conditions for `PaymentBelowMinimum` all hold (minimum is set,
0 < minimum, 0 < total outstanding) yet the code rejects with the
invalid-amount error instead, so the claimed iff for `PaymentBelowMinimum`
fails. -/
theorem claim_C9_counterexample :
    (⟨1, 50, 25, 100, 1000, some 10, none, 0⟩ : PaymentContext).minimum_payment = some 10 ∧
    (0 : ℚ) < 10 ∧
    (0 : ℚ) < (⟨1, 50, 25, 100, 1000, some 10, none, 0⟩ : PaymentContext).total_outstanding ∧
    PaymentContext.validate_payment ⟨1, 50, 25, 100, 1000, some 10, none, 0⟩ 0 =
      .error (.InvalidPaymentAmount 0) ∧
    PaymentContext.validate_payment ⟨1, 50, 25, 100, 1000, some 10, none, 0⟩ 0 ≠
      .error (.PaymentBelowMinimum 10 0) := by
  have hval : PaymentContext.validate_payment ⟨1, 50, 25, 100, 1000, some 10, none, 0⟩ 0 =
      .error (.InvalidPaymentAmount 0) := by
    unfold PaymentContext.validate_payment
    rw [if_pos (Or.inl rfl)]
  have htot : (⟨1, 50, 25, 100, 1000, some 10, none, 0⟩ : PaymentContext).total_outstanding =
      1175 := by
    rw [total_outstanding_eq ⟨5000000000, by norm_num⟩ ⟨2500000000, by norm_num⟩
      ⟨10000000000, by norm_num⟩ ⟨100000000000, by norm_num⟩]
    norm_num
  refine ⟨rfl, by norm_num, by rw [htot]; norm_num, hval, ?_⟩
  rw [hval]
  intro h
  simp at h

/-- C9 (amended): validation rejects with the invalid-amount error exactly
when the amount is nonpositive; for a positive amount it rejects with
`PaymentBelowMinimum` exactly when a minimum is set, the amount is below it
and below the total outstanding; every other amount is accepted — in
particular a payment covering the whole outstanding balance is accepted even
below the minimum. -/
theorem claim_C9_validate_payment (ctx : PaymentContext) (amount : ℚ) :
    ctx.validate_payment amount = spec_validate_payment ctx amount ∧
    (0 < amount → ctx.total_outstanding ≤ amount →
      ctx.validate_payment amount = .ok ()) := by
  constructor
  · unfold PaymentContext.validate_payment spec_validate_payment
    by_cases h0 : amount = 0 ∨ amount < 0
    · have hle : amount ≤ 0 := by
        rcases h0 with h | h
        · exact le_of_eq h
        · exact le_of_lt h
      rw [if_pos h0, if_pos hle]
    · have h0' := not_or.1 h0
      have hpos : 0 < amount := lt_of_le_of_ne (not_lt.1 h0'.2) (Ne.symm h0'.1)
      have hnle : ¬ amount ≤ 0 := not_le.2 hpos
      rw [if_neg h0, if_neg hnle]
  · intro hpos htot
    unfold PaymentContext.validate_payment
    have h0 : ¬ (amount = 0 ∨ amount < 0) :=
      not_or.2 ⟨ne_of_gt hpos, not_lt.2 (le_of_lt hpos)⟩
    rw [if_neg h0]
    cases hm : ctx.minimum_payment with
    | none => rfl
    | some m =>
        have hcond : ¬ (amount < m ∧ amount < ctx.total_outstanding) := by
          rintro ⟨_, hlt⟩
          exact absurd hlt (not_lt.2 htot)
        show (if amount < m ∧ amount < ctx.total_outstanding then
            Except.error (FacilityError.PaymentBelowMinimum m amount)
          else Except.ok ()) = Except.ok ()
        rw [if_neg hcond]

/-! ### C3: overpayment handling, ReducePrincipal strategy
(`src/payments/overpayment.rs`) -/

/-- Overpayment result (`OverpaymentResult` in `src/payments/overpayment.rs`). -/
structure OverpaymentResult where
  strategy : OverpaymentStrategy
  amount_applied : ℚ
  old_principal : ℚ
  new_principal : ℚ
  old_emi : Option ℚ
  new_emi : Option ℚ
  old_term_months : Option ℕ
  new_term_months : Option ℕ
  savings : ℚ
  deriving DecidableEq, Repr

/-- Simplified interest savings (`OverpaymentHandler::calculate_interest_savings`):
`principal_reduction * 0.1 + rate_reduction * 100` in `Money` arithmetic. -/
def calculate_interest_savings (principal_reduction rate_reduction : ℚ) : ℚ :=
  Money.add (Money.mul_dec principal_reduction (1/10)) (Money.mul_dec rate_reduction 100)

/-- ReducePrincipal strategy (`OverpaymentHandler::reduce_principal`): subtract
the overpayment from the outstanding principal, emit `OverpaymentReceived`,
and return the result; no other field and no schedule is touched. -/
def OverpaymentHandler.reduce_principal (facility_id : ℕ) (overpayment : ℚ)
    (ctx : PaymentContext) (now : ℤ) (events : List Event) :
    Except FacilityError OverpaymentResult × PaymentContext × List Event :=
  let old_principal := ctx.outstanding_principal
  let ctx' := { ctx with
    outstanding_principal := Money.sub ctx.outstanding_principal overpayment }
  let events' := events ++
    [Event.OverpaymentReceived facility_id overpayment .ReducePrincipal now]
  (.ok { strategy := .ReducePrincipal
         amount_applied := overpayment
         old_principal := old_principal
         new_principal := ctx'.outstanding_principal
         old_emi := none
         new_emi := none
         old_term_months := none
         new_term_months := none
         savings := calculate_interest_savings overpayment 0 },
   ctx', events')

/-- C3 counterexample: reducing a principal of 100 by an overpayment of 150
leaves a principal of -50, not `max(100 - 150, 0) = 0`; the principal does go
negative, refuting the claimed clamping law. -/
theorem claim_C3_counterexample :
    (OverpaymentHandler.reduce_principal 1 150
        ⟨1, 0, 0, 0, 100, none, none, 0⟩ 0 []).2.1.outstanding_principal = -50 ∧
    (OverpaymentHandler.reduce_principal 1 150
        ⟨1, 0, 0, 0, 100, none, none, 0⟩ 0 []).2.1.outstanding_principal ≠
      max ((100 : ℚ) - 150) 0 ∧
    (OverpaymentHandler.reduce_principal 1 150
        ⟨1, 0, 0, 0, 100, none, none, 0⟩ 0 []).2.1.outstanding_principal < 0 := by
  have hsub : Money.sub (100 : ℚ) 150 = -50 := by
    rw [Money.sub_eq ⟨10000000000, by norm_num⟩ ⟨15000000000, by norm_num⟩]
    norm_num
  refine ⟨?_, ?_, ?_⟩
  · show Money.sub (100 : ℚ) 150 = -50
    exact hsub
  · show Money.sub (100 : ℚ) 150 ≠ max ((100 : ℚ) - 150) 0
    rw [hsub, max_eq_right (by norm_num : (100 : ℚ) - 150 ≤ 0)]
    norm_num
  · show Money.sub (100 : ℚ) 150 < 0
    rw [hsub]
    norm_num

/-- C3 (amended): ReducePrincipal with amount `x` yields
`new_principal = old_principal - x` (which coincides with
`max(old_principal - x, 0)` only when `x ≤ old_principal`, and is negative
when `x > old_principal`); all other context fields are unchanged and the
amortization schedule is untouched (no EMI or term recomputation). -/
theorem claim_C3_reduce_principal (fid : ℕ) (x : ℚ) (ctx : PaymentContext)
    (now : ℤ) (events : List Event) (hx : 0 < x) (hxn : IsNorm x)
    (hpn : IsNorm ctx.outstanding_principal) :
    ∃ res, OverpaymentHandler.reduce_principal fid x ctx now events =
        (.ok res, { ctx with outstanding_principal := ctx.outstanding_principal - x },
          events ++ [Event.OverpaymentReceived fid x .ReducePrincipal now]) ∧
      res.new_principal = ctx.outstanding_principal - x ∧
      res.old_principal = ctx.outstanding_principal ∧
      (x ≤ ctx.outstanding_principal →
        res.new_principal = max (ctx.outstanding_principal - x) 0) ∧
      (ctx.outstanding_principal < x → res.new_principal < 0) ∧
      res.old_emi = none ∧ res.new_emi = none ∧
      res.old_term_months = none ∧ res.new_term_months = none := by
  have hsub : Money.sub ctx.outstanding_principal x = ctx.outstanding_principal - x :=
    Money.sub_eq hpn hxn
  refine ⟨{ strategy := .ReducePrincipal
            amount_applied := x
            old_principal := ctx.outstanding_principal
            new_principal := ctx.outstanding_principal - x
            old_emi := none
            new_emi := none
            old_term_months := none
            new_term_months := none
            savings := calculate_interest_savings x 0 },
    ?_, rfl, rfl, ?_, ?_, rfl, rfl, rfl, rfl⟩
  · unfold OverpaymentHandler.reduce_principal
    rw [hsub]
  · intro hle
    show ctx.outstanding_principal - x = max (ctx.outstanding_principal - x) 0
    rw [max_eq_left (by linarith)]
  · intro hlt
    show ctx.outstanding_principal - x < 0
    linarith

theorem claim_C3_reduce_principal_witness :
    ∃ res, OverpaymentHandler.reduce_principal 3 10000
        ⟨3, 0, 0, 0, 100000, none, none, 0⟩ 0 [] =
        (.ok res,
          { (⟨3, 0, 0, 0, 100000, none, none, 0⟩ : PaymentContext) with
            outstanding_principal := (100000 : ℚ) - 10000 },
          [] ++ [Event.OverpaymentReceived 3 10000 .ReducePrincipal 0]) ∧
      res.new_principal = (100000 : ℚ) - 10000 ∧
      res.new_principal = max ((100000 : ℚ) - 10000) 0 ∧
      res.new_emi = none ∧ res.new_term_months = none := by
  obtain ⟨res, h1, h2, _, h4, _, _, h7, _, h9⟩ :=
    claim_C3_reduce_principal 3 10000 ⟨3, 0, 0, 0, 100000, none, none, 0⟩ 0 []
      (by norm_num) ⟨1000000000000, by norm_num⟩ ⟨10000000000000, by norm_num⟩
  exact ⟨res, h1, h2, h4 (by norm_num), h7, h9⟩

/-! ### Penalty interest (`src/interest/penalty.rs`) -/

/-- Penalty configuration (`PenaltyConfig`). -/
structure PenaltyConfig where
  base_rate : ℚ
  penalty_multiplier : ℚ
  fixed_penalty_rate : Option ℚ
  grace_period_days : ℕ
  minimum_penalty : ℚ
  maximum_penalty_rate : Option ℚ
  deriving DecidableEq, Repr

/-- Effective penalty rate (`PenaltyConfig::effective_penalty_rate`): the
fixed rate if set, otherwise base rate times multiplier; capped at the
maximum rate if one is set. -/
def PenaltyConfig.effective_penalty_rate (cfg : PenaltyConfig) : ℚ :=
  let penalty_rate :=
    match cfg.fixed_penalty_rate with
    | some fixed_rate => fixed_rate
    | none => cfg.base_rate * cfg.penalty_multiplier
  match cfg.maximum_penalty_rate with
  | some max_rate => min penalty_rate max_rate
  | none => penalty_rate

/-- Penalty calculation result (`PenaltyCalculation`). -/
structure PenaltyCalculation where
  penalty_amount : ℚ
  effective_rate : ℚ
  days_charged : ℕ
  overdue_base : ℚ
  grace_applied : Bool
  deriving DecidableEq, Repr

/-- Penalty on an overdue amount (`PenaltyEngine::calculate_penalty`):
zero within the grace period, otherwise simple daily penalty interest for
the days past grace, floored at the configured minimum. -/
def PenaltyEngine.calculate_penalty (cfg : PenaltyConfig) (overdue_amount : ℚ)
    (days_overdue : ℕ) : PenaltyCalculation :=
  if days_overdue ≤ cfg.grace_period_days then
    { penalty_amount := 0
      effective_rate := 0
      days_charged := 0
      overdue_base := overdue_amount
      grace_applied := true }
  else
    let days_charged := days_overdue - cfg.grace_period_days
    let penalty_rate := cfg.effective_penalty_rate
    let daily_penalty_rate := penalty_rate / 365
    let penalty := overdue_amount * daily_penalty_rate * (days_charged : ℚ)
    { penalty_amount := max (Money.from_decimal penalty) cfg.minimum_penalty
      effective_rate := penalty_rate
      days_charged := days_charged
      overdue_base := overdue_amount
      grace_applied := false }

/-- Effective penalty rate as worded by the spec:
`min(fixed_rate ?? base_rate * multiplier, max_rate ?? uncapped)`. -/
def spec_effective_rate (cfg : PenaltyConfig) : ℚ :=
  match cfg.maximum_penalty_rate with
  | some m => min (cfg.fixed_penalty_rate.getD (cfg.base_rate * cfg.penalty_multiplier)) m
  | none => cfg.fixed_penalty_rate.getD (cfg.base_rate * cfg.penalty_multiplier)

/-- C4: the effective penalty rate is `min(fixed ?? base*multiplier,
max ?? uncapped)`; within grace the penalty is zero with `grace_applied`
set; past grace the penalty is
`overdue * effective_rate / 365 * (days_overdue - grace_days)` floored at the
minimum penalty, with `grace_applied` clear and `days_charged` the days past
grace. -/
theorem claim_C4_penalty (cfg : PenaltyConfig) (overdue : ℚ) (days_overdue : ℕ) :
    cfg.effective_penalty_rate = spec_effective_rate cfg ∧
    (days_overdue ≤ cfg.grace_period_days →
      (PenaltyEngine.calculate_penalty cfg overdue days_overdue).penalty_amount = 0 ∧
      (PenaltyEngine.calculate_penalty cfg overdue days_overdue).grace_applied = true) ∧
    (cfg.grace_period_days < days_overdue →
      (PenaltyEngine.calculate_penalty cfg overdue days_overdue).penalty_amount =
        max (Money.from_decimal (overdue * cfg.effective_penalty_rate / 365 *
          ((days_overdue : ℚ) - (cfg.grace_period_days : ℚ)))) cfg.minimum_penalty ∧
      (PenaltyEngine.calculate_penalty cfg overdue days_overdue).grace_applied = false ∧
      (PenaltyEngine.calculate_penalty cfg overdue days_overdue).days_charged =
        days_overdue - cfg.grace_period_days) := by
  refine ⟨?_, ?_, ?_⟩
  · rcases hf : cfg.fixed_penalty_rate with _ | fr <;>
      rcases hm : cfg.maximum_penalty_rate with _ | mr <;>
        simp [PenaltyConfig.effective_penalty_rate, spec_effective_rate, hf, hm]
  · intro h
    unfold PenaltyEngine.calculate_penalty
    rw [if_pos h]
    exact ⟨rfl, rfl⟩
  · intro h
    unfold PenaltyEngine.calculate_penalty
    rw [if_neg (not_le.2 h)]
    refine ⟨?_, rfl, rfl⟩
    show max (Money.from_decimal (overdue * (cfg.effective_penalty_rate / 365) *
      ((days_overdue - cfg.grace_period_days : ℕ) : ℚ))) cfg.minimum_penalty = _
    congr 2
    rw [Nat.cast_sub (le_of_lt h)]
    ring

theorem claim_C4_penalty_witness :
    (PenaltyEngine.calculate_penalty ⟨1/20, 3/2, none, 5, 0, none⟩ 1000 3).penalty_amount = 0 ∧
    (PenaltyEngine.calculate_penalty ⟨1/20, 3/2, none, 5, 0, none⟩ 1000 3).grace_applied = true ∧
    (PenaltyEngine.calculate_penalty ⟨1/20, 3/2, none, 5, 0, none⟩ 1000 10).grace_applied = false ∧
    (PenaltyEngine.calculate_penalty ⟨1/20, 3/2, none, 5, 0, none⟩ 1000 10).days_charged = 5 := by
  obtain ⟨_, hg, _⟩ := claim_C4_penalty ⟨1/20, 3/2, none, 5, 0, none⟩ 1000 3
  obtain ⟨_, _, hmain⟩ := claim_C4_penalty ⟨1/20, 3/2, none, 5, 0, none⟩ 1000 10
  obtain ⟨h1, h2⟩ := hg (by norm_num)
  obtain ⟨_, h3, h4⟩ := hmain (by norm_num)
  exact ⟨h1, h2, h3, h4⟩

/-! ### C10: tiered penalties and u32 arithmetic -/

/-- Penalty tier (`PenaltyTier`). -/
structure PenaltyTier where
  name : String
  min_days : ℕ
  max_days : Option ℕ
  rate_multiplier : ℚ
  deriving DecidableEq, Repr

/-- Individual tier calculation (`TierCalculation`). -/
structure TierCalculation where
  tier_name : String
  days_in_tier : ℕ
  rate : ℚ
  penalty : ℚ
  deriving DecidableEq, Repr

/-- Tiered penalty result (`TieredPenaltyResult`). -/
structure TieredPenaltyResult where
  total_penalty : ℚ
  tier_calculations : List TierCalculation
  days_overdue : ℕ
  overdue_amount : ℚ
  deriving DecidableEq, Repr

/-- Checked `u32` subtraction: `none` models the debug-mode panic on
underflow. -/
def u32_sub (a b : ℕ) : Option ℕ := if a < b then none else some (a - b)

/-- Checked `u32` addition: `none` models the debug-mode panic past
`u32::MAX`. -/
def u32_add (a b : ℕ) : Option ℕ := if a + b < 4294967296 then some (a + b) else none

/-- The `days_in_tier` computation of `PenaltyEngine::calculate_tiered_penalty`:
`days_overdue.min(max) - tier.min_days + 1` (or without the cap when no
`max_days`), in checked `u32` arithmetic. -/
def days_in_tier_checked (days_overdue : ℕ) (tier : PenaltyTier) : Option ℕ :=
  match tier.max_days with
  | some m => (u32_sub (min days_overdue m) tier.min_days).bind (fun d => u32_add d 1)
  | none => (u32_sub days_overdue tier.min_days).bind (fun d => u32_add d 1)

/-- The tier loop of `PenaltyEngine::calculate_tiered_penalty`: each tier
whose `min_days` has been reached contributes simple daily interest at
`base_rate * rate_multiplier` for its days in tier. -/
def tiered_loop (cfg : PenaltyConfig) (overdue_amount : ℚ) (days_overdue : ℕ) :
    List PenaltyTier → ℚ → List TierCalculation → Option (ℚ × List TierCalculation)
  | [], total, acc => some (total, acc)
  | tier :: rest, total, acc =>
      if tier.min_days ≤ days_overdue then
        match days_in_tier_checked days_overdue tier with
        | none => none
        | some days =>
            let tier_rate := cfg.base_rate * tier.rate_multiplier
            let daily_rate := tier_rate / 365
            let tier_penalty := overdue_amount * daily_rate * (days : ℚ)
            let penalty_amount := Money.from_decimal tier_penalty
            tiered_loop cfg overdue_amount days_overdue rest
              (Money.add total penalty_amount)
              (acc ++ [{ tier_name := tier.name
                         days_in_tier := days
                         rate := tier_rate
                         penalty := penalty_amount }])
      else tiered_loop cfg overdue_amount days_overdue rest total acc

/-- Tiered penalty (`PenaltyEngine::calculate_tiered_penalty`); `none` models
a `u32` underflow or overflow panic inside the tier loop. -/
def PenaltyEngine.calculate_tiered_penalty (cfg : PenaltyConfig)
    (overdue_amount : ℚ) (days_overdue : ℕ) (tiers : List PenaltyTier) :
    Option TieredPenaltyResult :=
  (tiered_loop cfg overdue_amount days_overdue tiers 0 []).map (fun p =>
    { total_penalty := max p.1 cfg.minimum_penalty
      tier_calculations := p.2
      days_overdue := days_overdue
      overdue_amount := overdue_amount })

theorem tiered_loop_isSome (cfg : PenaltyConfig) (overdue : ℚ) {d : ℕ}
    {tiers : List PenaltyTier} (hd : d < 4294967296)
    (hpre : ∀ t ∈ tiers, 1 ≤ t.min_days ∧ ∀ m ∈ t.max_days, t.min_days ≤ m) :
    ∀ total acc, (tiered_loop cfg overdue d tiers total acc).isSome := by
  induction tiers with
  | nil => intro total acc; rfl
  | cons t rest ih =>
      intro total acc
      have hrest : ∀ t' ∈ rest, 1 ≤ t'.min_days ∧ ∀ m ∈ t'.max_days, t'.min_days ≤ m :=
        fun t' ht' => hpre t' (List.mem_cons_of_mem t ht')
      obtain ⟨hmin1, hmax⟩ := hpre t (List.mem_cons_self t rest)
      unfold tiered_loop
      by_cases hreach : t.min_days ≤ d
      · rw [if_pos hreach]
        have hsome : ∃ days, days_in_tier_checked d t = some days := by
          cases hm : t.max_days with
          | none =>
              refine ⟨d - t.min_days + 1, ?_⟩
              simp only [days_in_tier_checked, hm, u32_sub, u32_add,
                if_neg (not_lt.2 hreach), Option.some_bind]
              rw [if_pos (by omega)]
          | some m =>
              have hm' : t.min_days ≤ m := hmax m (by rw [hm]; rfl)
              refine ⟨min d m - t.min_days + 1, ?_⟩
              simp only [days_in_tier_checked, hm, u32_sub, u32_add,
                if_neg (not_lt.2 (le_min hreach hm')), Option.some_bind]
              rw [if_pos (by omega)]
        obtain ⟨days, hdays⟩ := hsome
        rw [hdays]
        exact ih hrest _ _
      · rw [if_neg hreach]
        exact ih hrest total acc

theorem tiered_loop_none (cfg : PenaltyConfig) (overdue : ℚ) {d : ℕ}
    {tiers : List PenaltyTier}
    (hbad : ∃ t ∈ tiers, ∃ m, t.max_days = some m ∧ m < t.min_days ∧ t.min_days ≤ d) :
    ∀ total acc, tiered_loop cfg overdue d tiers total acc = none := by
  induction tiers with
  | nil =>
      obtain ⟨t, ht, _⟩ := hbad
      exact absurd ht (List.not_mem_nil t)
  | cons t rest ih =>
      intro total acc
      obtain ⟨tb, htb, m, hmb, hlt, hreachb⟩ := hbad
      unfold tiered_loop
      rcases List.mem_cons.1 htb with rfl | htbrest
      · rw [if_pos hreachb]
        have hnone : days_in_tier_checked d tb = none := by
          simp only [days_in_tier_checked, hmb, u32_sub]
          rw [if_pos (by omega : min d m < tb.min_days)]
          rfl
        rw [hnone]
      · have ihr := ih ⟨tb, htbrest, m, hmb, hlt, hreachb⟩
        by_cases hreach : t.min_days ≤ d
        · rw [if_pos hreach]
          cases hdt : days_in_tier_checked d t with
          | none => rfl
          | some days => exact ihr _ _
        · rw [if_neg hreach]
          exact ihr total acc

/-- C10: under the precondition that every tier's `max_days` (when set) is at
least its `min_days` and every `min_days` is at least 1, the `u32`
computation `days_overdue.min(max) - min_days + 1` never underflows or
overflows and `calculate_tiered_penalty` is total; a tier with
`max_days < min_days ≤ days_overdue` makes the subtraction underflow. -/
theorem claim_C10_tiered_penalty (cfg : PenaltyConfig) (overdue : ℚ)
    (days_overdue : ℕ) (tiers : List PenaltyTier)
    (hd : days_overdue < 4294967296) :
    ((∀ t ∈ tiers, 1 ≤ t.min_days ∧ ∀ m ∈ t.max_days, t.min_days ≤ m) →
      (PenaltyEngine.calculate_tiered_penalty cfg overdue days_overdue tiers).isSome) ∧
    ((∃ t ∈ tiers, ∃ m, t.max_days = some m ∧ m < t.min_days ∧
        t.min_days ≤ days_overdue) →
      PenaltyEngine.calculate_tiered_penalty cfg overdue days_overdue tiers = none) := by
  constructor
  · intro hpre
    unfold PenaltyEngine.calculate_tiered_penalty
    have h := tiered_loop_isSome cfg overdue hd hpre 0 []
    cases hl : tiered_loop cfg overdue days_overdue tiers 0 [] with
    | none => rw [hl] at h; exact absurd h (by simp)
    | some p => rfl
  · intro hbad
    unfold PenaltyEngine.calculate_tiered_penalty
    rw [tiered_loop_none cfg overdue hbad 0 []]
    rfl

theorem claim_C10_tiered_penalty_witness :
    (PenaltyEngine.calculate_tiered_penalty ⟨1/20, 1, none, 0, 0, none⟩ 1000 45
      [⟨"Tier 1", 1, some 30, 3/2⟩, ⟨"Tier 2", 31, some 60, 2⟩,
       ⟨"Tier 3", 61, none, 3⟩]).isSome ∧
    PenaltyEngine.calculate_tiered_penalty ⟨1/20, 1, none, 0, 0, none⟩ 1000 20
      [⟨"Bad", 10, some 5, 1⟩] = none := by
  constructor
  · exact (claim_C10_tiered_penalty ⟨1/20, 1, none, 0, 0, none⟩ 1000 45
      [⟨"Tier 1", 1, some 30, 3/2⟩, ⟨"Tier 2", 31, some 60, 2⟩, ⟨"Tier 3", 61, none, 3⟩]
      (by norm_num)).1 (by
        intro t ht
        simp only [List.mem_cons, List.not_mem_nil, or_false] at ht
        rcases ht with rfl | rfl | rfl
        · refine ⟨by decide, ?_⟩
          intro m hm
          simp only [Option.mem_def, Option.some.injEq] at hm
          subst hm
          decide
        · refine ⟨by decide, ?_⟩
          intro m hm
          simp only [Option.mem_def, Option.some.injEq] at hm
          subst hm
          decide
        · refine ⟨by decide, ?_⟩
          intro m hm
          simp at hm)
  · exact (claim_C10_tiered_penalty ⟨1/20, 1, none, 0, 0, none⟩ 1000 20
      [⟨"Bad", 10, some 5, 1⟩] (by norm_num)).2
      ⟨⟨"Bad", 10, some 5, 1⟩, List.mem_cons_self _ _, 5, rfl, by decide, by decide⟩

/-! ### C5: the 30/360 day-count convention (`src/interest/accrual.rs`) -/

/-- 30/360 day count (`AccrualEngine::days_30_360`), on explicit
year/month/day components: cap the start day at 30; if the (capped) start
day is 30, cap the end day at 30; then
`360 * dy + 30 * dm + dd`, clamped below at 0 and returned as `u32`. -/
def days_30_360 (y1 m1 d1 y2 m2 d2 : ℤ) : ℕ :=
  let dd1 := min d1 30
  let dd2 := if dd1 = 30 then min d2 30 else d2
  let days := 360 * (y2 - y1) + 30 * (m2 - m1) + (dd2 - dd1)
  (max days 0).toNat

/-- The closed formula of the claim: `360 * dy + 30 * dm + dd` with the
European end-of-month capping rule and no clamping. -/
def thirty360_formula (y1 m1 d1 y2 m2 d2 : ℤ) : ℤ :=
  let dd1 := min d1 30
  let dd2 := if dd1 = 30 then min d2 30 else d2
  360 * (y2 - y1) + 30 * (m2 - m1) + (dd2 - dd1)

/-- C5 counterexample: for a start date after the end date (2024-02-01 to
2024-01-01) the closed formula is -30 but the engine clamps at 0, so the
day count does not equal the formula for every pair of dates. -/
theorem claim_C5_counterexample :
    (days_30_360 2024 2 1 2024 1 1 : ℤ) = 0 ∧
    thirty360_formula 2024 2 1 2024 1 1 = -30 ∧
    (days_30_360 2024 2 1 2024 1 1 : ℤ) ≠ thirty360_formula 2024 2 1 2024 1 1 := by
  refine ⟨by decide, by decide, by decide⟩

/-- C5 (amended): the 30/360 day count equals the closed formula
`360 * dy + 30 * dm + (d2p - d1p)` — where `d1p = min(d1, 30)` and `d2p`
caps `d2` at 30 only when `d1p = 30` — clamped below at zero; for
chronologically ordered dates (start at or before end) the formula is
nonnegative and the two agree exactly. -/
theorem claim_C5_thirty360 (y1 m1 d1 y2 m2 d2 : ℤ)
    (hm1a : 1 ≤ m1) (hm1b : m1 ≤ 12) (hm2a : 1 ≤ m2) (hm2b : m2 ≤ 12)
    (hd1 : 1 ≤ d1) (hd2 : 1 ≤ d2) :
    (days_30_360 y1 m1 d1 y2 m2 d2 : ℤ) =
      max (thirty360_formula y1 m1 d1 y2 m2 d2) 0 ∧
    ((y1 < y2 ∨ (y1 = y2 ∧ (m1 < m2 ∨ (m1 = m2 ∧ d1 ≤ d2)))) →
      (days_30_360 y1 m1 d1 y2 m2 d2 : ℤ) = thirty360_formula y1 m1 d1 y2 m2 d2) := by
  have hmax : (days_30_360 y1 m1 d1 y2 m2 d2 : ℤ) =
      max (thirty360_formula y1 m1 d1 y2 m2 d2) 0 := by
    unfold days_30_360 thirty360_formula
    exact Int.toNat_of_nonneg (le_max_right _ _)
  refine ⟨hmax, ?_⟩
  intro hle
  have hF : 0 ≤ thirty360_formula y1 m1 d1 y2 m2 d2 := by
    simp only [thirty360_formula]
    by_cases h30 : min d1 30 = 30
    · rw [if_pos h30]
      rcases hle with h | ⟨rfl, h | ⟨rfl, h⟩⟩ <;> omega
    · rw [if_neg h30]
      rcases hle with h | ⟨rfl, h | ⟨rfl, h⟩⟩ <;> omega
  rw [hmax, max_eq_left hF]

theorem claim_C5_thirty360_witness :
    (days_30_360 2024 1 15 2024 3 30 : ℤ) = thirty360_formula 2024 1 15 2024 3 30 ∧
    days_30_360 2024 1 15 2024 3 30 = 75 := by
  refine ⟨(claim_C5_thirty360 2024 1 15 2024 3 30 (by norm_num) (by norm_num)
    (by norm_num) (by norm_num) (by norm_num) (by norm_num)).2 ?_, by decide⟩
  exact Or.inr ⟨rfl, Or.inl (by norm_num)⟩

/-! ### C6: LTV status classification (`src/collateral/ltv.rs`) -/

/-- LTV thresholds (`LtvThresholds` in `src/types.rs`). -/
structure LtvThresholds where
  initial_ltv : ℚ
  warning_ltv : ℚ
  margin_call_ltv : ℚ
  liquidation_ltv : ℚ
  deriving DecidableEq, Repr

/-- LTV status (`LtvStatus` in `src/types.rs`). -/
inductive LtvStatus where
  | Healthy
  | Warning
  | MarginCall
  | Liquidation
  deriving DecidableEq, Repr

/-- LTV status classification (`LtvCalculator::get_ltv_status`): strict
comparisons from the most severe threshold downward. -/
def LtvCalculator.get_ltv_status (t : LtvThresholds) (ltv : ℚ) : LtvStatus :=
  if t.liquidation_ltv < ltv then .Liquidation
  else if t.margin_call_ltv < ltv then .MarginCall
  else if t.warning_ltv < ltv then .Warning
  else .Healthy

/-- Band classification as worded by the claim: `ltv ≤ warning` is Healthy,
`warning < ltv ≤ margin_call` is Warning, `margin_call < ltv ≤ liquidation`
is MarginCall, `ltv > liquidation` is Liquidation. -/
def spec_ltv_classification (t : LtvThresholds) (ltv : ℚ) : LtvStatus :=
  if ltv ≤ t.warning_ltv then .Healthy
  else if ltv ≤ t.margin_call_ltv then .Warning
  else if ltv ≤ t.liquidation_ltv then .MarginCall
  else .Liquidation

/-- C6: whenever `warning ≤ margin_call ≤ liquidation`, the code's
classification coincides with the claim's band classification, so an LTV
exactly equal to a threshold falls in the lower-severity band. -/
theorem claim_C6_ltv_status (t : LtvThresholds) (ltv : ℚ)
    (h1 : t.warning_ltv ≤ t.margin_call_ltv)
    (h2 : t.margin_call_ltv ≤ t.liquidation_ltv) :
    LtvCalculator.get_ltv_status t ltv = spec_ltv_classification t ltv := by
  unfold LtvCalculator.get_ltv_status spec_ltv_classification
  split_ifs <;> first | rfl | (exfalso; linarith)

theorem claim_C6_ltv_status_witness :
    LtvCalculator.get_ltv_status ⟨1/2, 13/20, 7/10, 3/4⟩ (7/10) =
      spec_ltv_classification ⟨1/2, 13/20, 7/10, 3/4⟩ (7/10) ∧
    LtvCalculator.get_ltv_status ⟨1/2, 13/20, 7/10, 3/4⟩ (7/10) = .Warning ∧
    LtvCalculator.get_ltv_status ⟨1/2, 13/20, 7/10, 3/4⟩ (3/4) = .MarginCall := by
  refine ⟨claim_C6_ltv_status _ _ (by norm_num) (by norm_num), ?_, ?_⟩
  · unfold LtvCalculator.get_ltv_status
    rw [if_neg (by norm_num), if_neg (by norm_num), if_pos (by norm_num)]
  · unfold LtvCalculator.get_ltv_status
    rw [if_neg (by norm_num), if_pos (by norm_num)]

/-! ### C7: flash-crash protection (`src/collateral/bitcoin.rs`) -/

/-- A price feed (the `PriceFeed` trait): a spot price and a time-weighted
average price for a requested window. -/
structure PriceFeed where
  get_spot_price : ℚ
  get_twap : ℤ → ℚ

/-- Bitcoin collateral management (`BitcoinCollateral`). -/
structure BitcoinCollateral where
  btc_amount : ℚ
  price_feed : PriceFeed
  volatility_buffer : ℚ
  last_valuation : ℤ
  flash_crash_protection : Bool
  twap_window : ℤ

/-- Current collateral value (`BitcoinCollateral::calculate_value`):
amount times spot price, as `Money`. -/
def BitcoinCollateral.calculate_value (c : BitcoinCollateral) : ℚ :=
  Money.from_decimal (c.btc_amount * c.price_feed.get_spot_price)

/-- Liquidation check with flash-crash protection
(`BitcoinCollateral::should_liquidate`).  The method also refreshes
`last_valuation`, so it returns the decision together with the updated
collateral. -/
def BitcoinCollateral.should_liquidate (c : BitcoinCollateral) (cvl : ℚ)
    (liquidation_threshold : ℚ) (now : ℤ) : Bool × BitcoinCollateral :=
  let c' := { c with last_valuation := now }
  if c.flash_crash_protection = false then
    let spot_value := c'.calculate_value
    (decide (liquidation_threshold < cvl / spot_value), c')
  else
    let spot_price := c.price_feed.get_spot_price
    let twap := c.price_feed.get_twap c.twap_window
    let spot_value := Money.from_decimal (c.btc_amount * spot_price)
    let twap_value := Money.from_decimal (c.btc_amount * twap)
    let ltv_spot := cvl / spot_value
    let ltv_twap := cvl / twap_value
    (decide (liquidation_threshold < ltv_spot) &&
      decide (liquidation_threshold < ltv_twap), c')

/-- The mock feed's TWAP (`MockPriceFeed::get_twap`): the plain average of
the history entries within the window ending at the most recent entry.
(The `unwrap_or` arm of the source reads the host clock but is unreachable:
it is only evaluated when the history is nonempty.) -/
def MockPriceFeed.get_twap (price_history : List (ℤ × ℚ)) (spot_price : ℚ)
    (duration : ℤ) : ℚ :=
  if price_history.isEmpty then spot_price
  else
    let cutoff := ((price_history.getLast?).map Prod.fst).getD 0 - duration
    let relevant_prices := (price_history.filter (fun p => cutoff ≤ p.1)).map Prod.snd
    if relevant_prices.isEmpty then spot_price
    else Money.from_decimal (relevant_prices.sum / (relevant_prices.length : ℚ))

/-- C7: with flash-crash protection enabled, `should_liquidate` returns true
exactly when both the spot-price LTV and the LTV from the feed's TWAP over
the configured window exceed the liquidation threshold; in particular a spot
spike that leaves the TWAP-based LTV at or below the threshold does not
liquidate. -/
theorem claim_C7_should_liquidate (c : BitcoinCollateral) (cvl θ : ℚ) (now : ℤ)
    (hp : c.flash_crash_protection = true) :
    ((c.should_liquidate cvl θ now).1 = true ↔
      (θ < cvl / c.calculate_value ∧
       θ < cvl / Money.from_decimal (c.btc_amount * c.price_feed.get_twap c.twap_window))) ∧
    (cvl / Money.from_decimal (c.btc_amount * c.price_feed.get_twap c.twap_window) ≤ θ →
      (c.should_liquidate cvl θ now).1 = false) := by
  unfold BitcoinCollateral.should_liquidate
  rw [hp, if_neg (by simp)]
  constructor
  · simp [BitcoinCollateral.calculate_value]
  · intro h
    simp only [Bool.and_eq_true, decide_eq_true_eq]
    have : ¬ θ < cvl / Money.from_decimal (c.btc_amount * c.price_feed.get_twap c.twap_window) :=
      not_lt.2 h
    simp [this]

theorem claim_C7_should_liquidate_witness :
    (BitcoinCollateral.should_liquidate
      { btc_amount := 1
        price_feed :=
          { get_spot_price := 30000
            get_twap := fun d => MockPriceFeed.get_twap
              [(300, 50000), (420, 50000), (540, 50000), (660, 50000),
               (780, 50000), (900, 50000), (1020, 50000), (1200, 30000)] 30000 d }
        volatility_buffer := 1/10
        last_valuation := 0
        flash_crash_protection := true
        twap_window := 900 } 35000 (3/4) 0).1 = false := by
  have hn : IsNorm (47500 : ℚ) := ⟨4750000000000, by norm_num⟩
  have htwap : MockPriceFeed.get_twap
      [(300, 50000), (420, 50000), (540, 50000), (660, 50000),
       (780, 50000), (900, 50000), (1020, 50000), (1200, 30000)] 30000 900 = 47500 := by
    have h1 : MockPriceFeed.get_twap
        [(300, 50000), (420, 50000), (540, 50000), (660, 50000),
         (780, 50000), (900, 50000), (1020, 50000), (1200, 30000)] 30000 900 =
        Money.from_decimal ((380000 : ℚ) / 8) := by
      simp only [MockPriceFeed.get_twap]
      norm_num [List.getLast?, List.filter]
    rw [h1]
    have : ((380000 : ℚ) / 8) = 47500 := by norm_num
    rw [this]
    exact Money.round_dp8_eq_self hn
  refine (claim_C7_should_liquidate _ 35000 (3/4) 0 rfl).2 ?_
  show (35000 : ℚ) / Money.from_decimal (1 * MockPriceFeed.get_twap
    [(300, 50000), (420, 50000), (540, 50000), (660, 50000),
     (780, 50000), (900, 50000), (1020, 50000), (1200, 30000)] 30000 900) ≤ 3/4
  rw [htwap, one_mul]
  simp only [Money.from_decimal]
  rw [Money.round_dp8_eq_self hn]
  rw [div_le_iff (by norm_num : (0:ℚ) < 47500)]
  norm_num

/-! ### C8: liquidation execution (`src/collateral/liquidation.rs`) -/

/-- Liquidation method (`LiquidationMethod`). -/
inductive LiquidationMethod where
  | MarketSale
  | Auction
  | PrivateSale
  | Partial
  deriving DecidableEq, Repr

/-- Liquidation state (`LiquidationStatus`). -/
inductive LiquidationStatus where
  | NotInitiated
  | GracePeriod
  | InProgress
  | Completed
  deriving DecidableEq, Repr

/-- Debug name of a liquidation state, as interpolated into the
`InvalidState` error by the source. -/
def LiquidationStatus.debug_name : LiquidationStatus → String
  | .NotInitiated => "NotInitiated"
  | .GracePeriod => "GracePeriod"
  | .InProgress => "InProgress"
  | .Completed => "Completed"

/-- Liquidation result (`LiquidationResult`). -/
structure LiquidationResult where
  method : LiquidationMethod
  gross_proceeds : ℚ
  liquidation_costs : ℚ
  net_proceeds : ℚ
  cvl_before : ℚ
  cvl_after : ℚ
  deficiency : Option ℚ
  surplus : Option ℚ
  timestamp : ℤ
  deriving DecidableEq, Repr

/-- Liquidation engine (`LiquidationEngine`). -/
structure LiquidationEngine where
  facility_id : ℕ
  status : LiquidationStatus
  grace_period_hours : ℕ
  grace_period_end : Option ℤ
  liquidation_cost_rate : ℚ
  events : List Event
  deriving DecidableEq, Repr

/-- Proceed only while a liquidation is in progress
(`LiquidationEngine::check_can_liquidate`). -/
def LiquidationEngine.check_can_liquidate (eng : LiquidationEngine) :
    Except FacilityError Unit :=
  match eng.status with
  | .InProgress => .ok ()
  | s => .error (.InvalidState s.debug_name "InProgress")

/-- Complete a liquidation (`LiquidationEngine::complete_liquidation`):
costs are `gross * cost_rate`, net is gross minus costs, the remaining debt
is clamped at zero, a positive remainder becomes the deficiency, and
proceeds beyond the debt become the surplus. -/
def LiquidationEngine.complete_liquidation (eng : LiquidationEngine)
    (method : LiquidationMethod) (gross_proceeds cvl : ℚ) (now : ℤ) :
    LiquidationResult × LiquidationEngine :=
  let liquidation_costs := Money.from_decimal (gross_proceeds * eng.liquidation_cost_rate)
  let net_proceeds := Money.sub gross_proceeds liquidation_costs
  let cvl_after := if cvl ≤ net_proceeds then 0 else Money.sub cvl net_proceeds
  let deficiency := if 0 < cvl_after then some cvl_after else none
  let surplus := if cvl < net_proceeds then some (Money.sub net_proceeds cvl) else none
  let result : LiquidationResult :=
    { method := method
      gross_proceeds := gross_proceeds
      liquidation_costs := liquidation_costs
      net_proceeds := net_proceeds
      cvl_before := cvl
      cvl_after := cvl_after
      deficiency := deficiency
      surplus := surplus
      timestamp := now }
  let events1 := eng.events ++
    [Event.LiquidationCompleted eng.facility_id net_proceeds cvl_after now]
  let events2 :=
    match deficiency with
    | some amount => events1 ++
        [Event.DeficiencyBalance eng.facility_id amount "Pursuing" now]
    | none => events1
  (result, { eng with status := .Completed, events := events2 })

/-- Market-sale execution (`LiquidationEngine::execute_market_liquidation`):
estimate gross proceeds by applying the 5% market discount to the collateral
value, then complete the liquidation. -/
def LiquidationEngine.execute_market_liquidation (eng : LiquidationEngine)
    (collateral_value cvl : ℚ) (now : ℤ) :
    Except FacilityError LiquidationResult × LiquidationEngine :=
  match eng.check_can_liquidate with
  | .error e => (.error e, eng)
  | .ok _ =>
      let gross_proceeds := Money.from_decimal (collateral_value * (1 - 5/100))
      let p := eng.complete_liquidation .MarketSale gross_proceeds cvl now
      (.ok p.1, p.2)

/-- C8: for every liquidation execution with gross proceeds `G`, cost rate
`c` and debt `cvl`: `costs = G * c`, `net = G - costs`,
`cvl_after = max(cvl - net, 0)`, a deficiency is reported exactly when
`cvl_after > 0` (and equals it), a surplus exactly when `net > cvl` (and
equals `net - cvl`); for the MarketSale mode the gross proceeds are
`collateral_value * 0.95`. -/
theorem claim_C8_liquidation (eng : LiquidationEngine) (m : LiquidationMethod)
    (G cvl value : ℚ) (now : ℤ) (hG : IsNorm G) (hcvl : IsNorm cvl) :
    ((eng.complete_liquidation m G cvl now).1.gross_proceeds = G) ∧
    ((eng.complete_liquidation m G cvl now).1.liquidation_costs =
      Money.from_decimal (G * eng.liquidation_cost_rate)) ∧
    ((eng.complete_liquidation m G cvl now).1.net_proceeds =
      G - (eng.complete_liquidation m G cvl now).1.liquidation_costs) ∧
    ((eng.complete_liquidation m G cvl now).1.cvl_after =
      max (cvl - (eng.complete_liquidation m G cvl now).1.net_proceeds) 0) ∧
    ((eng.complete_liquidation m G cvl now).1.deficiency =
      if 0 < (eng.complete_liquidation m G cvl now).1.cvl_after
      then some ((eng.complete_liquidation m G cvl now).1.cvl_after) else none) ∧
    ((eng.complete_liquidation m G cvl now).1.surplus =
      if cvl < (eng.complete_liquidation m G cvl now).1.net_proceeds
      then some ((eng.complete_liquidation m G cvl now).1.net_proceeds - cvl)
      else none) ∧
    (eng.status = .InProgress →
      eng.execute_market_liquidation value cvl now =
        (.ok (eng.complete_liquidation .MarketSale
            (Money.from_decimal (value * (1 - 5/100))) cvl now).1,
          (eng.complete_liquidation .MarketSale
            (Money.from_decimal (value * (1 - 5/100))) cvl now).2)) := by
  have hcostsn : IsNorm (Money.from_decimal (G * eng.liquidation_cost_rate)) :=
    IsNorm.round_dp8 _
  have hnet : Money.sub G (Money.from_decimal (G * eng.liquidation_cost_rate)) =
      G - Money.from_decimal (G * eng.liquidation_cost_rate) :=
    Money.sub_eq hG hcostsn
  have hnetn : IsNorm (Money.sub G (Money.from_decimal (G * eng.liquidation_cost_rate))) := by
    rw [hnet]; exact hG.sub hcostsn
  refine ⟨rfl, rfl, Money.sub_eq hG hcostsn, ?_, rfl, ?_, ?_⟩
  · show (if cvl ≤ Money.sub G (Money.from_decimal (G * eng.liquidation_cost_rate))
        then (0:ℚ)
        else Money.sub cvl (Money.sub G (Money.from_decimal (G * eng.liquidation_cost_rate)))) =
      max (cvl - Money.sub G (Money.from_decimal (G * eng.liquidation_cost_rate))) 0
    by_cases h : cvl ≤ Money.sub G (Money.from_decimal (G * eng.liquidation_cost_rate))
    · rw [if_pos h, eq_comm]
      exact max_eq_right (sub_nonpos.2 h)
    · rw [if_neg h, Money.sub_eq hcvl hnetn]
      exact (max_eq_left (by linarith [not_le.1 h])).symm
  · show (if cvl < Money.sub G (Money.from_decimal (G * eng.liquidation_cost_rate))
        then some (Money.sub
          (Money.sub G (Money.from_decimal (G * eng.liquidation_cost_rate))) cvl)
        else none) =
      (if cvl < Money.sub G (Money.from_decimal (G * eng.liquidation_cost_rate))
        then some (Money.sub G (Money.from_decimal (G * eng.liquidation_cost_rate)) - cvl)
        else none)
    by_cases h : cvl < Money.sub G (Money.from_decimal (G * eng.liquidation_cost_rate))
    · rw [if_pos h, if_pos h, Money.sub_eq hnetn hcvl]
    · rw [if_neg h, if_neg h]
  · intro h
    unfold LiquidationEngine.execute_market_liquidation LiquidationEngine.check_can_liquidate
    rw [h]

theorem claim_C8_liquidation_witness :
    ∃ res eng2, LiquidationEngine.execute_market_liquidation
        ⟨9, .InProgress, 0, none, 1/20, []⟩ 100000 50000 0 = (.ok res, eng2) ∧
      res.gross_proceeds = 95000 ∧ res.liquidation_costs = 4750 ∧
      res.net_proceeds = 90250 ∧ res.cvl_after = 0 ∧
      res.deficiency = none ∧ res.surplus = some 40250 := by
  have e1 : Money.from_decimal ((100000 : ℚ) * (1 - 5/100)) = 95000 := by
    have harg : (100000 : ℚ) * (1 - 5/100) = 95000 := by norm_num
    unfold Money.from_decimal
    rw [harg]
    exact Money.round_dp8_eq_self ⟨9500000000000, by norm_num⟩
  have e2 : Money.from_decimal ((4750 : ℚ)) = 4750 := by
    unfold Money.from_decimal
    exact Money.round_dp8_eq_self ⟨475000000000, by norm_num⟩
  obtain ⟨hg, hc, hn, ha, hd, hs, hmkt⟩ :=
    claim_C8_liquidation ⟨9, .InProgress, 0, none, 1/20, []⟩ .MarketSale
      (Money.from_decimal ((100000 : ℚ) * (1 - 5/100))) 50000 100000 0
      (IsNorm.round_dp8 _) ⟨5000000000000, by norm_num⟩
  rw [e1] at hg hc hn ha hd hs hmkt
  have hproj : (⟨9, .InProgress, 0, none, 1/20, []⟩ :
      LiquidationEngine).liquidation_cost_rate = 1/20 := rfl
  rw [hproj] at hc
  rw [show (95000 : ℚ) * (1/20) = 4750 from by norm_num, e2] at hc
  rw [hc] at hn
  rw [show (95000 : ℚ) - 4750 = 90250 from by norm_num] at hn
  rw [hn] at ha hs
  rw [show max ((50000 : ℚ) - 90250) 0 = 0 from max_eq_right (by norm_num)] at ha
  rw [ha, if_neg (lt_irrefl (0 : ℚ))] at hd
  rw [if_pos (by norm_num : (50000 : ℚ) < 90250),
    show (90250 : ℚ) - 50000 = 40250 from by norm_num] at hs
  exact ⟨_, _, hmkt rfl, hg, hc, hn, ha, hd, hs⟩

/-! ### C1: facility operations and atomicity (`src/facility.rs`, `src/state.rs`)

The facility state carries every field of the Rust `FacilityState`.  The
configuration keeps, of each section, the fields the embedded operations
read: the collateral thresholds (`update_collateral`), the day-count
convention, penalty configuration and grace period (`update_daily_status`,
`apply_penalty_interest`, `accrue_interest`), the late fee
(`update_daily_status`) and the interest rate (`accrue_interest`); the
remaining configuration fields are never consulted by the embedded
operations.  Snapshot entries keep the captured state and trigger tag; the
snapshot id and capture time are fresh host-environment values in the source
and are omitted.  Timestamps are UTC seconds; `chrono` calendar dates are day
numbers obtained by floor division, converted to year/month/day by the civil
calendar conversion below. -/

/-- Collateral position (`CollateralPosition` in `src/types.rs`). -/
structure CollateralPosition where
  asset_type : String
  asset_amount : ℚ
  current_value : ℚ
  initial_value : ℚ
  last_valuation : ℤ
  valuation_source : String
  deriving DecidableEq, Repr

/-- Kind-specific facility state (`FacilitySpecificState` in `src/state.rs`). -/
inductive FacilitySpecificState where
  | TermLoan (scheduled_payment : ℚ) (remaining_term_months : ℕ)
      (balloon_payment : Option ℚ) (prepayment_amount : ℚ)
  | OpenTerm (collateral_value : ℚ) (collateral_amount : String)
      (last_valuation : ℤ) (margin_call_active : Bool)
      (margin_call_deadline : Option ℤ)
  | Revolving (credit_limit : ℚ) (available_credit : ℚ)
      (cash_advance_balance : ℚ) (purchase_balance : ℚ)
      (promotional_balance : ℚ) (overlimit_amount : ℚ)
      (statement_balance : ℚ) (statement_date : Option ℤ)
  | Overdraft (overdraft_limit : ℚ) (linked_account_balance : ℚ)
      (buffer_zone : ℚ) (daily_interest_accrued : ℚ)
  deriving DecidableEq, Repr

/-- Facility state (`FacilityState` in `src/state.rs`). -/
structure FacilityState where
  facility_id : ℕ
  account_number : String
  customer_id : String
  original_commitment : ℚ
  outstanding_principal : ℚ
  accrued_interest : ℚ
  accrued_fees : ℚ
  accrued_penalties : ℚ
  total_disbursed : ℚ
  available_commitment : ℚ
  total_payments_received : ℚ
  last_payment_amount : Option ℚ
  last_payment_date : Option ℤ
  next_payment_due : Option ℤ
  next_payment_amount : Option ℚ
  minimum_payment_due : Option ℚ
  last_interest_accrual : ℤ
  total_interest_paid : ℚ
  capitalized_interest : ℚ
  total_fees_charged : ℚ
  total_fees_paid : ℚ
  waived_fees : ℚ
  origination_date : ℤ
  activation_date : Option ℤ
  maturity_date : Option ℤ
  last_status_change : ℤ
  status : FacilityStatus
  days_past_due : ℕ
  payment_count : ℕ
  missed_payment_count : ℕ
  facility_specific : FacilitySpecificState
  collateral : Option CollateralPosition
  suspense_balance : ℚ
  write_off_amount : Option ℚ
  write_off_date : Option ℤ
  recovery_amount : Option ℚ
  deriving DecidableEq, Repr

/-- Total outstanding balance (`FacilityState::total_outstanding`):
principal + interest + fees + penalties, folded left in `Money` arithmetic. -/
def FacilityState.total_outstanding (st : FacilityState) : ℚ :=
  Money.add (Money.add (Money.add st.outstanding_principal st.accrued_interest)
    st.accrued_fees) st.accrued_penalties

/-- Whether the facility is performing (`FacilityState::is_performing`). -/
def FacilityState.is_performing (st : FacilityState) : Bool :=
  match st.status with
  | .Active => true
  | .Originated => true
  | .GracePeriod => true
  | _ => false

/-- Whether payments are accepted (`FacilityState::can_accept_payment`). -/
def FacilityState.can_accept_payment (st : FacilityState) : Bool :=
  match st.status with
  | .Settled => false
  | .ChargedOff => false
  | .Liquidated => false
  | _ => true

/-- Whether a disbursement is possible (`FacilityState::can_disburse`). -/
def FacilityState.can_disburse (st : FacilityState) : Bool :=
  st.is_performing && decide (0 < st.available_commitment)

/-- Status update (`FacilityState::update_status`). -/
def FacilityState.update_status (st : FacilityState) (new_status : FacilityStatus)
    (timestamp : ℤ) : FacilityState :=
  { st with status := new_status, last_status_change := timestamp }

/-- Record a payment (`FacilityState::record_payment`): track totals and reset
days past due when the payment meets the minimum due. -/
def FacilityState.record_payment (st : FacilityState) (amount : ℚ)
    (timestamp : ℤ) : FacilityState :=
  let st1 := { st with
    total_payments_received := Money.add st.total_payments_received amount
    last_payment_amount := some amount
    last_payment_date := some timestamp
    payment_count := st.payment_count + 1 }
  match st.minimum_payment_due with
  | some minimum => if minimum ≤ amount then { st1 with days_past_due := 0 } else st1
  | none => st1

/-- Record a disbursement (`FacilityState::record_disbursement`); the source
reads the host clock for the activation date, modelled by `sys_now`. -/
def FacilityState.record_disbursement (st : FacilityState) (amount : ℚ)
    (sys_now : ℤ) : FacilityState :=
  let st1 := { st with
    total_disbursed := Money.add st.total_disbursed amount
    outstanding_principal := Money.add st.outstanding_principal amount
    available_commitment := max (Money.sub st.available_commitment amount) 0 }
  if st1.activation_date = none then
    { st1 with activation_date := some sys_now, status := .Active }
  else st1

/-- Collateral configuration (the `ltv_thresholds` section consulted by
`Facility::update_collateral`). -/
structure CollateralConfig where
  ltv_thresholds : LtvThresholds
  deriving DecidableEq, Repr

/-- Day-count convention (`DayCountConvention` in `src/interest/accrual.rs`). -/
inductive DayCountConvention where
  | Actual365
  | Actual360
  | Thirty360
  | ActualActual
  deriving DecidableEq, Repr

/-- Interest configuration (`InterestConfig` in `src/config.rs`), kept to the
fields the embedded operations read (`day_count_convention`,
`penalty_config`, `grace_period_days`). -/
structure InterestConfig where
  day_count_convention : DayCountConvention
  penalty_config : Option PenaltyConfig
  grace_period_days : ℕ
  deriving DecidableEq, Repr

/-- Fee configuration (`FeeConfig` in `src/config.rs`), kept to the
`late_fee` field read by `Facility::update_daily_status`. -/
structure FeeConfig where
  late_fee : Option ℚ
  deriving DecidableEq, Repr

/-- Financial terms (`FinancialTerms` in `src/config.rs`), kept to the
`interest_rate` field read by `Facility::accrue_interest`. -/
structure FinancialTerms where
  interest_rate : ℚ
  deriving DecidableEq, Repr

/-- Facility configuration (`FacilityConfig`), reduced to the sections the
embedded operations read. -/
structure FacilityConfig where
  collateral_config : Option CollateralConfig
  interest_config : InterestConfig
  fee_config : FeeConfig
  financial_terms : FinancialTerms
  deriving DecidableEq, Repr

/-- State snapshot (`StateSnapshot::capture`). -/
structure StateSnapshot where
  state : FacilityState
  trigger : String
  deriving DecidableEq, Repr

/-- The facility aggregate (`Facility` in `src/facility.rs`). -/
structure Facility where
  id : ℕ
  config : FacilityConfig
  state : FacilityState
  events : List Event
  snapshots : List StateSnapshot
  deriving DecidableEq, Repr

/-- Disbursement (`Facility::disburse`): validate, record, emit the
activation or draw event, snapshot.  On a validation failure the facility is
returned untouched (validate-first-then-mutate). -/
def Facility.disburse (f : Facility) (amount : ℚ) (now sys_now : ℤ) :
    Except FacilityError ℚ × Facility :=
  if f.state.can_disburse = false then
    (.error (.FacilityNotActive f.state.status), f)
  else if f.state.available_commitment < amount then
    (.error (.InsufficientFunds f.state.available_commitment amount), f)
  else
    let st := f.state.record_disbursement amount sys_now
    let ev :=
      if st.total_disbursed = amount then
        Event.FacilityActivated f.id amount now
      else
        Event.FundsDrawn f.id amount st.outstanding_principal
          st.available_commitment now
    (.ok amount,
     { f with
       state := st
       events := f.events ++ [ev]
       snapshots := f.snapshots ++ [⟨st, "disbursement"⟩] })

/-- Payment processing on the facility (`Facility::process_payment`): build
the payment context from the state, run the standard waterfall, write the
context back, track totals, settle when nothing remains outstanding.  The
processor receives the facility's event store by mutable reference, so its
returned event list is kept even on an error (the processor appends nothing
before its validation). -/
def Facility.process_payment (f : Facility) (amount : ℚ) (now : ℤ) :
    Except FacilityError PaymentResult × Facility :=
  if f.state.can_accept_payment = false then
    (.error (.FacilityNotActive f.state.status), f)
  else
    let ctx : PaymentContext :=
      { facility_id := f.id
        accrued_fees := f.state.accrued_fees
        accrued_penalties := f.state.accrued_penalties
        accrued_interest := f.state.accrued_interest
        outstanding_principal := f.state.outstanding_principal
        minimum_payment := f.state.minimum_payment_due
        payment_due_date := f.state.next_payment_due
        days_overdue := f.state.days_past_due }
    let request : PaymentRequest :=
      { facility_id := f.id
        amount := amount
        payment_date := now
        reference := "payment"
        is_principal_only := false }
    match PaymentProcessor.process PaymentWaterfall.standard request ctx now f.events with
    | (.error e, _, events2) => (.error e, { f with events := events2 })
    | (.ok result, ctx2, events2) =>
        let st1 := { f.state with
          accrued_fees := ctx2.accrued_fees
          accrued_penalties := ctx2.accrued_penalties
          accrued_interest := ctx2.accrued_interest
          outstanding_principal := ctx2.outstanding_principal }
        let st2 := st1.record_payment amount now
        let st3 := { st2 with
          total_interest_paid :=
            Money.add st2.total_interest_paid result.application.to_interest
          total_fees_paid :=
            Money.add st2.total_fees_paid result.application.to_fees }
        if st3.total_outstanding = (0 : ℚ) then
          let st4 := st3.update_status .Settled now
          (.ok result,
           { f with
             state := st4
             events := events2 ++ [Event.FacilitySettled f.id amount now]
             snapshots := f.snapshots ++ [⟨st4, "payment"⟩] })
        else
          (.ok result,
           { f with
             state := st3
             events := events2
             snapshots := f.snapshots ++ [⟨st3, "payment"⟩] })

/-- LTV breach check (`Facility::check_ltv_breach`): emits `LtvCalculated`,
then on a liquidation breach moves the status to Liquidating, emits
`LtvLiquidationBreached` and returns the `LtvBreach` error — leaving the
mutations in place.  (`Duration::days(7)` is 604800 seconds.) -/
def Facility.check_ltv_breach (f : Facility) (thresholds : LtvThresholds)
    (now : ℤ) : Except FacilityError Unit × Facility :=
  match f.state.collateral with
  | none => (.error .NoCollateral, f)
  | some collateral =>
      let ltv := f.state.outstanding_principal / collateral.current_value
      let f1 := { f with events := f.events ++
        [Event.LtvCalculated f.id ltv collateral.current_value
          f.state.outstanding_principal now] }
      if thresholds.liquidation_ltv < ltv then
        (.error (.LtvBreach ltv thresholds.liquidation_ltv),
         { f1 with
           state := f1.state.update_status .Liquidating now
           events := f1.events ++
             [Event.LtvLiquidationBreached f.id ltv thresholds.liquidation_ltv now] })
      else
        let f2 :=
          if thresholds.margin_call_ltv < ltv then
            { f1 with events := f1.events ++
              [Event.MarginCallRequired f.id ltv thresholds.margin_call_ltv
                (now + 604800) ["Add collateral", "Pay down principal"]] }
          else f1
        let f3 :=
          if thresholds.warning_ltv < ltv then
            { f2 with events := f2.events ++
              [Event.LtvWarningBreached f.id ltv thresholds.warning_ltv now] }
          else f2
        (.ok (), f3)

/-- Collateral update (`Facility::update_collateral`): emit the revaluation
event, store the position, then run the LTV check when a collateral
configuration is present. -/
def Facility.update_collateral (f : Facility) (collateral : CollateralPosition)
    (now : ℤ) : Except FacilityError Unit × Facility :=
  let old_value := (f.state.collateral.map (fun c => c.current_value)).getD 0
  let f1 := { f with events := f.events ++
    [Event.CollateralValueUpdated f.id old_value collateral.current_value
      collateral.valuation_source now] }
  let f2 := { f1 with state := { f1.state with collateral := some collateral } }
  match f.config.collateral_config with
  | some cfg => f2.check_ltv_breach cfg.ltv_thresholds now
  | none => (.ok (), f2)

/-- Cast of a signed 64-bit value to `u32` (`as u32` in the source): the low
32 bits, read unsigned. -/
def i64_as_u32 (x : ℤ) : ℕ := (x % 4294967296).toNat

/-- `chrono::Duration::num_days` on a duration held in seconds: `i64`
division by 86400, truncating toward zero. -/
def duration_num_days (d : ℤ) : ℤ := Int.tdiv d 86400

/-- `DateTime::date_naive` on a UTC timestamp in seconds: the day number
since 1970-01-01 (floor division). -/
def date_naive (t : ℤ) : ℤ := Int.fdiv t 86400

/-- Civil calendar conversion: year, month and day of a day number counted
from 1970-01-01 (the conversion `chrono::NaiveDate` performs for `year()`,
`month()` and `day()`). -/
def civil_from_days (z0 : ℤ) : ℤ × ℤ × ℤ :=
  let z := z0 + 719468
  let era := Int.fdiv z 146097
  let doe := z - era * 146097
  let yoe := (doe - doe / 1460 + doe / 36524 - doe / 146096) / 365
  let doy := doe - (365 * yoe + yoe / 4 - yoe / 100)
  let mp := (5 * doy + 2) / 153
  let d := doy - (153 * mp + 2) / 5 + 1
  let m := mp + (if mp < 3 then 3 else -9)
  (yoe + era * 400 + (if m ≤ 2 then 1 else 0), m, d)

/-- Leap-year test (`is_leap_year` in `src/interest/accrual.rs`). -/
def is_leap_year (y : ℤ) : Bool :=
  (y % 4 == 0 && !(y % 100 == 0)) || y % 400 == 0

/-- Year basis of a convention (`AccrualEngine::year_basis`). -/
def AccrualEngine.year_basis (conv : DayCountConvention) (year : ℤ) : ℕ :=
  match conv with
  | .Actual365 => 365
  | .Actual360 => 360
  | .Thirty360 => 360
  | .ActualActual => if is_leap_year year then 366 else 365

/-- Day count between timestamps (`AccrualEngine::calculate_days`): actual
days for the actual conventions, the 30/360 rule on calendar dates for
`Thirty360`. -/
def AccrualEngine.calculate_days (conv : DayCountConvention)
    (start stop : ℤ) : ℕ :=
  match conv with
  | .Thirty360 =>
      let s := civil_from_days (date_naive start)
      let e := civil_from_days (date_naive stop)
      days_30_360 s.1 s.2.1 s.2.2 e.1 e.2.1 e.2.2
  | _ => i64_as_u32 (duration_num_days (stop - start))

/-- Daily accrual record (`DailyAccrual` in `src/interest/accrual.rs`). -/
structure DailyAccrual where
  date : ℤ
  principal_base : ℚ
  interest_amount : ℚ
  daily_rate : ℚ
  deriving DecidableEq, Repr

/-- Daily interest accrual (`AccrualEngine::accrue_daily`): one accrual per
elapsed day at `annual_rate / year_basis`, each rounded by
`Money::from_decimal`. -/
def AccrualEngine.accrue_daily (conv : DayCountConvention)
    (principal annual_rate : ℚ) (last_accrual now : ℤ) : List DailyAccrual :=
  let days := AccrualEngine.calculate_days conv last_accrual now
  if days = 0 then []
  else
    let yb := AccrualEngine.year_basis conv (civil_from_days (date_naive now)).1
    let daily_rate := annual_rate / (yb : ℚ)
    (List.range days).map (fun i =>
      { date := last_accrual + 86400 * ((i : ℤ) + 1)
        principal_base := principal
        interest_amount := Money.from_decimal (principal * daily_rate)
        daily_rate := daily_rate })

/-- Interest accrual on the facility (`Facility::accrue_interest`): nothing
on a zero principal, otherwise fold the daily accruals into
`accrued_interest`, emit one `InterestAccrued` event per accrual and stamp
`last_interest_accrual`.  The source returns `Ok` on every path. -/
def Facility.accrue_interest (f : Facility) (now : ℤ) :
    Except FacilityError (List DailyAccrual) × Facility :=
  if f.state.outstanding_principal = (0 : ℚ) then (.ok [], f)
  else
    let accruals := AccrualEngine.accrue_daily
      f.config.interest_config.day_count_convention
      f.state.outstanding_principal f.config.financial_terms.interest_rate
      f.state.last_interest_accrual now
    let st1 := accruals.foldl
      (fun st a =>
        { st with accrued_interest := Money.add st.accrued_interest a.interest_amount })
      f.state
    (.ok accruals,
     { f with
       state := { st1 with last_interest_accrual := now }
       events := f.events ++
         accruals.map (fun a => Event.InterestAccrued f.id a.interest_amount a.date) })

/-- Penalty interest application (`Facility::apply_penalty_interest`): no-op
at zero days past due; the `InvalidConfiguration` error when no penalty
configuration is set; otherwise the penalty on the minimum payment due,
accrued and emitted when positive. -/
def Facility.apply_penalty_interest (f : Facility) (now : ℤ) :
    Except FacilityError ℚ × Facility :=
  if f.state.days_past_due = 0 then (.ok 0, f)
  else
    match f.config.interest_config.penalty_config with
    | none => (.error (.InvalidConfiguration "No penalty configuration"), f)
    | some pcfg =>
        let overdue_amount := f.state.minimum_payment_due.getD 0
        let calculation := PenaltyEngine.calculate_penalty pcfg overdue_amount
          f.state.days_past_due
        if 0 < calculation.penalty_amount then
          (.ok calculation.penalty_amount,
           { f with
             state := { f.state with
               accrued_penalties :=
                 Money.add f.state.accrued_penalties calculation.penalty_amount }
             events := f.events ++
               [Event.PenaltyInterestApplied f.id calculation.penalty_amount
                 f.state.days_past_due now] })
        else (.ok calculation.penalty_amount, f)

/-- Daily status update (`Facility::update_daily_status`): when a due payment
is late, store the days past due, move the status (Active, GracePeriod or
Delinquent), emit the status events, charge the late fee on grace expiry and
— past the grace period — apply penalty interest, whose error the `?`
operator propagates with every prior mutation kept; finally accrue daily
interest on a positive principal. -/
def Facility.update_daily_status (f : Facility) (now : ℤ) :
    Except FacilityError Unit × Facility :=
  let accrue_tail := fun (g : Facility) =>
    if 0 < g.state.outstanding_principal then
      match g.accrue_interest now with
      | (.error e, g2) => ((.error e : Except FacilityError Unit), g2)
      | (.ok _, g2) => (.ok (), g2)
    else (.ok (), g)
  match f.state.next_payment_due with
  | none => accrue_tail f
  | some due_date =>
    if due_date < now then
      let payment_made :=
        (f.state.last_payment_date.map (fun pd => decide (due_date ≤ pd))).getD false
      if payment_made = false then
        let days_overdue := i64_as_u32 (duration_num_days (now - due_date))
        let f1 := { f with state := { f.state with days_past_due := days_overdue } }
        let grace_period := f.config.interest_config.grace_period_days
        let new_status :=
          if days_overdue = 0 then FacilityStatus.Active
          else if days_overdue ≤ grace_period then FacilityStatus.GracePeriod
          else FacilityStatus.Delinquent
        let f2 :=
          if new_status ≠ f1.state.status then
            let old_status := f1.state.status
            let f2a := { f1 with
              state := f1.state.update_status new_status now
              events := f1.events ++
                [Event.StatusChanged f.id old_status new_status
                  (toString days_overdue ++ " days past due") now] }
            let f2b :=
              if new_status = FacilityStatus.GracePeriod ∧
                  old_status = FacilityStatus.Active then
                { f2a with events := f2a.events ++
                  [Event.GracePeriodStarted f.id (date_naive due_date)
                    (date_naive (due_date + 86400 * (grace_period : ℤ))) now] }
              else f2a
            if old_status = FacilityStatus.GracePeriod ∧
                new_status = FacilityStatus.Delinquent then
              let f2c := { f2b with events := f2b.events ++
                [Event.GracePeriodExpired f.id days_overdue now] }
              match f.config.fee_config.late_fee with
              | some fee =>
                  { f2c with
                    state := { f2c.state with
                      accrued_fees := Money.add f2c.state.accrued_fees fee
                      total_fees_charged :=
                        Money.add f2c.state.total_fees_charged fee }
                    events := f2c.events ++
                      [Event.LateFeeApplied f.id fee days_overdue now] }
              | none => f2c
            else f2b
          else f1
        if grace_period < days_overdue then
          match f2.apply_penalty_interest now with
          | (.error e, f3) => (.error e, f3)
          | (.ok _, f3) => accrue_tail f3
        else accrue_tail f2
      else accrue_tail f
    else accrue_tail f

theorem process_error_unchanged {w : PaymentWaterfall} {req : PaymentRequest}
    {ctx : PaymentContext} {now : ℤ} {events : List Event} {e : FacilityError}
    {ctx2 : PaymentContext} {events2 : List Event}
    (h : PaymentProcessor.process w req ctx now events = (.error e, ctx2, events2)) :
    ctx2 = ctx ∧ events2 = events := by
  unfold PaymentProcessor.process at h
  cases hv : ctx.validate_payment req.amount with
  | error e' =>
      rw [hv] at h
      simp only [Prod.mk.injEq] at h
      exact ⟨h.2.1.symm, h.2.2.symm⟩
  | ok u =>
      rw [hv] at h
      simp only [Prod.mk.injEq] at h
      exact absurd h.1 (by simp)

/-- Shape of `Facility::update_collateral` on a liquidation-LTV breach: the
call returns the `LtvBreach` error while the new collateral position, the
Liquidating status and the three emitted events all persist. -/
theorem update_collateral_breach {f : Facility} {pos : CollateralPosition}
    {cfg : CollateralConfig} {now : ℤ}
    (hcfg : f.config.collateral_config = some cfg)
    (hltv : cfg.ltv_thresholds.liquidation_ltv <
      f.state.outstanding_principal / pos.current_value) :
    Facility.update_collateral f pos now =
      (.error (.LtvBreach (f.state.outstanding_principal / pos.current_value)
          cfg.ltv_thresholds.liquidation_ltv),
       { f with
         state := { f.state with
                    collateral := some pos
                    status := .Liquidating
                    last_status_change := now }
         events := ((f.events ++
             [Event.CollateralValueUpdated f.id
               ((f.state.collateral.map (fun c => c.current_value)).getD 0)
               pos.current_value pos.valuation_source now]) ++
             [Event.LtvCalculated f.id
               (f.state.outstanding_principal / pos.current_value)
               pos.current_value f.state.outstanding_principal now]) ++
             [Event.LtvLiquidationBreached f.id
               (f.state.outstanding_principal / pos.current_value)
               cfg.ltv_thresholds.liquidation_ltv now] }) := by
  unfold Facility.update_collateral Facility.check_ltv_breach
  rw [hcfg]
  dsimp only
  rw [if_pos hltv]
  rfl

/-- Shape of `Facility::update_daily_status` on the delinquency path with no
penalty configuration: the days past due, the Delinquent status and the late
fee are stored and three events appended before `apply_penalty_interest`
returns the `InvalidConfiguration` error, which the `?` operator propagates
with every mutation kept. -/
theorem update_daily_status_breach {f : Facility} {due_date now : ℤ} {fee : ℚ}
    (h1 : f.state.next_payment_due = some due_date)
    (h2 : due_date < now)
    (h3 : (f.state.last_payment_date.map (fun pd => decide (due_date ≤ pd))).getD false
      = false)
    (h4 : f.state.status = .GracePeriod)
    (h5 : f.config.fee_config.late_fee = some fee)
    (h6 : f.config.interest_config.penalty_config = none)
    (h7 : f.config.interest_config.grace_period_days <
      i64_as_u32 (duration_num_days (now - due_date))) :
    Facility.update_daily_status f now =
      (.error (.InvalidConfiguration "No penalty configuration"),
       { f with
         state := { f.state with
           days_past_due := i64_as_u32 (duration_num_days (now - due_date))
           last_status_change := now
           status := .Delinquent
           accrued_fees := Money.add f.state.accrued_fees fee
           total_fees_charged := Money.add f.state.total_fees_charged fee }
         events := ((f.events ++
           [Event.StatusChanged f.id .GracePeriod .Delinquent
             (toString (i64_as_u32 (duration_num_days (now - due_date))) ++
               " days past due") now]) ++
           [Event.GracePeriodExpired f.id
             (i64_as_u32 (duration_num_days (now - due_date))) now]) ++
           [Event.LateFeeApplied f.id fee
             (i64_as_u32 (duration_num_days (now - due_date))) now] }) := by
  have hD0 : ¬ (i64_as_u32 (duration_num_days (now - due_date)) = 0) := by omega
  have hDg : ¬ (i64_as_u32 (duration_num_days (now - due_date)) ≤
      f.config.interest_config.grace_period_days) := Nat.not_le.2 h7
  unfold Facility.update_daily_status Facility.apply_penalty_interest
    FacilityState.update_status
  rw [h1]
  dsimp only
  rw [if_pos h2, if_pos h3, if_neg hD0, if_neg hDg, h4, h5]
  rw [if_pos (by decide : FacilityStatus.Delinquent ≠ FacilityStatus.GracePeriod),
    if_neg (by decide : ¬ (FacilityStatus.Delinquent = FacilityStatus.GracePeriod ∧
      FacilityStatus.GracePeriod = FacilityStatus.Active)),
    if_pos (⟨rfl, rfl⟩ : FacilityStatus.GracePeriod = FacilityStatus.GracePeriod ∧
      FacilityStatus.Delinquent = FacilityStatus.Delinquent)]
  dsimp only
  rw [if_pos h7]
  rw [if_neg hD0, h6]

/-- C1 (amended): `disburse` and `process_payment` are atomic — whenever they
return an error the facility (state, events and snapshots) is exactly the
input facility; `update_collateral` and `update_daily_status` are not
atomic — when the LTV check breaches the liquidation threshold,
`update_collateral` returns the `LtvBreach` error while the stored
collateral, the Liquidating status and three appended events persist; and
when a facility past its grace period has no penalty configuration,
`update_daily_status` returns the `InvalidConfiguration` error while the
stored days past due, the Delinquent status, the charged late fee and three
appended events persist. -/
theorem claim_C1_atomicity (f : Facility) (amount : ℚ) (now sys_now : ℤ) :
    (∀ e g, Facility.disburse f amount now sys_now = (.error e, g) → g = f) ∧
    (∀ e g, Facility.process_payment f amount now = (.error e, g) → g = f) ∧
    (∀ pos cfg, f.config.collateral_config = some cfg →
      cfg.ltv_thresholds.liquidation_ltv <
        f.state.outstanding_principal / pos.current_value →
      (Facility.update_collateral f pos now).1 =
        .error (.LtvBreach (f.state.outstanding_principal / pos.current_value)
          cfg.ltv_thresholds.liquidation_ltv) ∧
      (Facility.update_collateral f pos now).2.state.status = .Liquidating ∧
      (Facility.update_collateral f pos now).2.state.collateral = some pos ∧
      (Facility.update_collateral f pos now).2.events.length =
        f.events.length + 3) ∧
    (∀ due_date fee, f.state.next_payment_due = some due_date → due_date < now →
      (f.state.last_payment_date.map (fun pd => decide (due_date ≤ pd))).getD false
        = false →
      f.state.status = .GracePeriod →
      f.config.fee_config.late_fee = some fee →
      f.config.interest_config.penalty_config = none →
      f.config.interest_config.grace_period_days <
        i64_as_u32 (duration_num_days (now - due_date)) →
      (Facility.update_daily_status f now).1 =
        .error (.InvalidConfiguration "No penalty configuration") ∧
      (Facility.update_daily_status f now).2.state.days_past_due =
        i64_as_u32 (duration_num_days (now - due_date)) ∧
      (Facility.update_daily_status f now).2.state.status = .Delinquent ∧
      (Facility.update_daily_status f now).2.state.accrued_fees =
        Money.add f.state.accrued_fees fee ∧
      (Facility.update_daily_status f now).2.events.length =
        f.events.length + 3) := by
  refine ⟨?_, ?_, ?_, ?_⟩
  · intro e g h
    unfold Facility.disburse at h
    by_cases h1 : f.state.can_disburse = false
    · rw [if_pos h1] at h
      simp only [Prod.mk.injEq] at h
      exact h.2.symm
    · rw [if_neg h1] at h
      by_cases h2 : f.state.available_commitment < amount
      · rw [if_pos h2] at h
        simp only [Prod.mk.injEq] at h
        exact h.2.symm
      · rw [if_neg h2] at h
        simp only [Prod.mk.injEq] at h
        exact absurd h.1 (by simp)
  · intro e g h
    unfold Facility.process_payment at h
    by_cases h1 : f.state.can_accept_payment = false
    · rw [if_pos h1] at h
      simp only [Prod.mk.injEq] at h
      exact h.2.symm
    · rw [if_neg h1] at h
      dsimp only at h
      split at h
      · rename_i e' ctx2 events2 heq
        obtain ⟨_, hev⟩ := process_error_unchanged heq
        simp only [Prod.mk.injEq] at h
        rw [← h.2, hev]
      · rename_i result ctx2 events2 heq
        split at h <;> (simp only [Prod.mk.injEq] at h; exact absurd h.1 (by simp))
  · intro pos cfg hcfg hltv
    rw [update_collateral_breach hcfg hltv]
    exact ⟨rfl, rfl, rfl, by simp⟩
  · intro due_date fee h1 h2 h3 h4 h5 h6 h7
    rw [update_daily_status_breach h1 h2 h3 h4 h5 h6 h7]
    exact ⟨rfl, rfl, rfl, rfl, by simp⟩

/-- Concrete collateral position used for the C1 instances. -/
def breach_position : CollateralPosition :=
  { asset_type := "BTC"
    asset_amount := 1
    current_value := 100000
    initial_value := 100000
    last_valuation := 0
    valuation_source := "oracle" }

/-- Concrete facility state used for the C1 instances: an active open-term
facility with 90000 outstanding against collateral worth 100000. -/
def breach_state : FacilityState :=
  { facility_id := 1
    account_number := "ACC-1"
    customer_id := "CUST-1"
    original_commitment := 100000
    outstanding_principal := 90000
    accrued_interest := 0
    accrued_fees := 0
    accrued_penalties := 0
    total_disbursed := 90000
    available_commitment := 10000
    total_payments_received := 0
    last_payment_amount := none
    last_payment_date := none
    next_payment_due := none
    next_payment_amount := none
    minimum_payment_due := none
    last_interest_accrual := 0
    total_interest_paid := 0
    capitalized_interest := 0
    total_fees_charged := 0
    total_fees_paid := 0
    waived_fees := 0
    origination_date := 0
    activation_date := some 0
    maturity_date := none
    last_status_change := 0
    status := .Active
    days_past_due := 0
    payment_count := 0
    missed_payment_count := 0
    facility_specific := .OpenTerm 100000 "1 BTC" 0 false none
    collateral := none
    suspense_balance := 0
    write_off_amount := none
    write_off_date := none
    recovery_amount := none }

/-- Concrete configuration used for the C1 instances: liquidation threshold
75%, 5-day grace period, a 100 late fee and no penalty configuration. -/
def c1_config : FacilityConfig :=
  { collateral_config := some { ltv_thresholds := ⟨1/2, 13/20, 7/10, 3/4⟩ }
    interest_config :=
      { day_count_convention := .Actual365
        penalty_config := none
        grace_period_days := 5 }
    fee_config := { late_fee := some 100 }
    financial_terms := { interest_rate := 1/10 } }

/-- Concrete facility with liquidation threshold 75% used for the C1
instances. -/
def breach_facility : Facility :=
  { id := 1
    config := c1_config
    state := breach_state
    events := []
    snapshots := [] }

/-- Concrete facility used for the C1 `update_daily_status` instance: in its
grace period with a payment due at time 0 and no payment made, observed ten
days later. -/
def overdue_facility : Facility :=
  { id := 1
    config := c1_config
    state := { breach_state with
      status := .GracePeriod
      next_payment_due := some 0 }
    events := []
    snapshots := [] }

/-- C1 counterexample: updating the collateral of an active facility whose
LTV (90%) breaches the 75% liquidation threshold returns an error, yet the
facility state has changed (status moved to Liquidating, collateral stored)
and events were appended; and running the daily status update on a facility
ten days past due with no penalty configuration returns an error, yet the
state has changed (days past due stored, status moved to Delinquent, late
fee charged) and events were appended — refuting the claimed atomicity of
both `update_collateral` and `update_daily_status`. -/
theorem claim_C1_counterexample :
    ((∃ e, (Facility.update_collateral breach_facility breach_position 0).1 =
      .error e) ∧
    (Facility.update_collateral breach_facility breach_position 0).2.state ≠
      breach_facility.state ∧
    (Facility.update_collateral breach_facility breach_position 0).2.events ≠
      breach_facility.events) ∧
    ((∃ e, (Facility.update_daily_status overdue_facility 864000).1 =
      .error e) ∧
    (Facility.update_daily_status overdue_facility 864000).2.state ≠
      overdue_facility.state ∧
    (Facility.update_daily_status overdue_facility 864000).2.events ≠
      overdue_facility.events) := by
  have hb := @update_collateral_breach breach_facility breach_position
    ⟨⟨1/2, 13/20, 7/10, 3/4⟩⟩ 0 rfl
    (by show (3/4 : ℚ) < (90000 : ℚ) / 100000; norm_num)
  have hd := @update_daily_status_breach overdue_facility 0 864000 100
    rfl (by decide) rfl rfl rfl rfl (by decide)
  refine ⟨⟨⟨_, by rw [hb]⟩, ?_, ?_⟩, ⟨_, by rw [hd]⟩, ?_, ?_⟩
  · intro hcontra
    have hstat := congrArg FacilityState.status hcontra
    rw [hb] at hstat
    exact absurd hstat (by decide)
  · intro hcontra
    have hlen := congrArg List.length hcontra
    rw [hb] at hlen
    exact absurd hlen (by decide)
  · intro hcontra
    have hstat := congrArg FacilityState.status hcontra
    rw [hd] at hstat
    exact absurd hstat (by decide)
  · intro hcontra
    have hlen := congrArg List.length hcontra
    rw [hd] at hlen
    exact absurd hlen (by decide)

theorem claim_C1_atomicity_witness :
    ((Facility.update_collateral breach_facility breach_position 0).1 =
      .error (.LtvBreach ((90000 : ℚ) / 100000) (3/4)) ∧
    (Facility.update_collateral breach_facility breach_position 0).2.state.status =
      .Liquidating ∧
    (Facility.update_collateral breach_facility breach_position 0).2.state.collateral =
      some breach_position ∧
    (Facility.update_collateral breach_facility breach_position 0).2.events.length = 3) ∧
    ((Facility.update_daily_status overdue_facility 864000).1 =
      .error (.InvalidConfiguration "No penalty configuration") ∧
    (Facility.update_daily_status overdue_facility 864000).2.state.days_past_due = 10 ∧
    (Facility.update_daily_status overdue_facility 864000).2.state.status =
      .Delinquent ∧
    (Facility.update_daily_status overdue_facility 864000).2.events.length = 3) := by
  obtain ⟨h1, h2, h3, h4⟩ :=
    (claim_C1_atomicity breach_facility 0 0 0).2.2.1 breach_position
      ⟨⟨1/2, 13/20, 7/10, 3/4⟩⟩ rfl
      (by show (3/4 : ℚ) < (90000 : ℚ) / 100000; norm_num)
  obtain ⟨g1, g2, g3, _, g5⟩ :=
    (claim_C1_atomicity overdue_facility 0 864000 0).2.2.2 0 100
      rfl (by decide) rfl rfl rfl rfl (by decide)
  exact ⟨⟨h1, h2, h3, h4⟩, g1, g2, g3, g5⟩
